import Mathlib

/-!
# PicoLED frame orchestration: a shallow embedding

The definitions below follow `src/PicoLED.cpp` and `src/PicoLED.h`.

* Machine integers are natural numbers (or `Int` for `int`); a reduction
  modulo `2^w` is written out wherever the C++ arithmetic can wrap
  (`micros() - lastshow`, `now -= lastframe`, the conversion of `br * 1000`
  to `uint32_t`, the store into the 16-bit `nFPS`, the `x--` of `operator[]`
  and the `++x` of `count`).
* The file-level and function-level statics (`lastshow`, `br`, `lastframe`)
  are fields of the orchestrator state.
* The hardware timer is a parameter `clock : Nat → Nat`: `clock k` is the
  number of microseconds since boot returned by the `k`-th read of the timer.
  The state counts the reads made so far.
* The controllers are known to the orchestrator only through
  `CLEDController::head()` and `next()`; the chain is a list, and every call
  made on a controller is appended to a call log.
-/

namespace PicoLED

/-- Modelled from the spec: `struct CRGB` (pixeltypes.h is not among the
sources); a colour value of three channels. -/
structure CRGB where
  r : Nat
  g : Nat
  b : Nat
  deriving DecidableEq, Repr

/-- Modelled from the spec: `CLEDController` (controller.h is not among the
sources). One output driver: its pixel region (base and length), its dither
mode, its colour adjustments and its native maximum refresh rate, together
with the number of times `init()` ran. `id` stands for the object's address. -/
structure CLEDController where
  id : Nat
  data : Int := 0
  nLeds : Int := 0
  dither : Nat := 1
  temperature : CRGB := ⟨255, 255, 255⟩
  correction : CRGB := ⟨255, 255, 255⟩
  maxRefreshRate : Nat := 0
  inits : Nat := 0
  deriving DecidableEq, Repr

/-- One call made by the orchestrator on a controller. The two flush calls
also record the dither mode the controller has at the moment of the flush. -/
inductive DriverCall where
  | init (id : Nat)
  | setLeds (id : Nat) (data : Int) (nLeds : Int)
  | setDither (id : Nat) (mode : Nat)
  | setTemperature (id : Nat) (temp : CRGB)
  | setCorrection (id : Nat) (correction : CRGB)
  | clearLedData (id : Nat)
  | showLeds (id : Nat) (scale : Nat) (dither : Nat)
  | showColor (id : Nat) (color : CRGB) (scale : Nat) (dither : Nat)
  deriving DecidableEq, Repr

/-- The type `power_func` of PicoLED.h: `uint8_t (*)(uint8_t scale, uint32_t data)`. -/
abbrev power_func := Nat → Nat → Nat

/-- The orchestrator: the members of `class PicoLED`, the statics of
PicoLED.cpp (`lastshow`, and `br`, `lastframe` of `countFPS`), the controller
chain, and the instrumentation (`reads`, `calls`, `frameStarts`). -/
structure State where
  /-- Member `uint8_t scale`: the global brightness. -/
  scale : Nat
  /-- Member `uint16_t nFPS`. -/
  nFPS : Nat
  /-- Member `uint32_t nMinMicros`. -/
  nMinMicros : Nat
  /-- Member `uint32_t nPowerData`. -/
  nPowerData : Nat
  /-- Member `power_func pPowerFunc`, `none` for `NULL`. -/
  pPowerFunc : Option power_func
  /-- File static `uint32_t lastshow`. -/
  lastshow : Nat
  /-- Function static `int br` of `countFPS`. -/
  br : Int
  /-- Function static `uint32_t lastframe` of `countFPS`. -/
  lastframe : Nat
  /-- The chain `CLEDController::head()`, `next()`, .. in order. -/
  controllers : List CLEDController
  /-- Number of reads of the hardware timer made so far. -/
  reads : Nat
  /-- Every call made on a controller, oldest first. -/
  calls : List DriverCall
  /-- The timer value (microseconds since boot, not truncated) read by each
  `lastshow = micros()`, oldest first. -/
  frameStarts : List Nat

/-- The constructor `PicoLED::PicoLED()`. `GPicoLED` and the statics have
static storage, so the members the constructor leaves alone start at zero. -/
def init : State :=
  { scale := 255
    nFPS := 0
    nMinMicros := 0
    nPowerData := 0xFFFFFFFF
    pPowerFunc := none
    lastshow := 0
    br := 0
    lastframe := 0
    controllers := []
    reads := 0
    calls := []
    frameStarts := [] }

/-- Function `micros()`: the microseconds since boot, truncated to `uint32_t`. -/
def micros (t : Nat) : Nat := t % 2 ^ 32

/-- Function `millis()`: the milliseconds since boot, truncated to `uint32_t`. -/
def millis (t : Nat) : Nat := (t / 1000) % 2 ^ 32

/-- Subtraction of two `uint32_t` values. -/
def u32sub (a b : Nat) : Nat := (a + 2 ^ 32 - b % 2 ^ 32) % 2 ^ 32

/-- Method `PicoLED::setMaxRefreshRate(uint16_t refresh, bool constrain)`.
The quotient `1000000 / refresh` is at most 1000000, so neither the division
nor its comparison with the 32-bit `nMinMicros` can wrap. -/
def setMaxRefreshRate (s : State) (refresh : Nat) (constrain : Bool) : State :=
  if constrain then
    if refresh > 0 then
      { s with nMinMicros :=
          if 1000000 / refresh > s.nMinMicros then 1000000 / refresh else s.nMinMicros }
    else s
  else if refresh > 0 then
    { s with nMinMicros := 1000000 / refresh }
  else
    { s with nMinMicros := 0 }

/-- Method `PicoLED::addLeds(pLed, data, nLedsOrOffset, nLedsIfOffset)`: the
controller is initialised, bound to its region and its native refresh rate is
handed to `setMaxRefreshRate` in constrain mode. Returns the new state and the
controller. Modelled from the spec: the link of the controller into the chain
(controller.h is not among the sources) is the spec's "the driver is appended
to the ordered sequence". -/
def addLeds (s : State) (pLed : CLEDController) (data : Int)
    (nLedsOrOffset : Int) (nLedsIfOffset : Int) : State × CLEDController :=
  let nOffset : Int := if nLedsIfOffset > 0 then nLedsOrOffset else 0
  let nLeds : Int := if nLedsIfOffset > 0 then nLedsIfOffset else nLedsOrOffset
  let led : CLEDController :=
    { pLed with inits := pLed.inits + 1, data := data + nOffset, nLeds := nLeds }
  let s1 : State :=
    { s with
      controllers := s.controllers ++ [led]
      calls := s.calls ++ [DriverCall.init pLed.id,
                           DriverCall.setLeds pLed.id (data + nOffset) nLeds] }
  (setMaxRefreshRate s1 led.maxRefreshRate true, led)

/-- One registration: the arguments of a call of `addLeds`. -/
structure Registration where
  pLed : CLEDController
  data : Int
  nLedsOrOffset : Int
  nLedsIfOffset : Int := 0
  deriving DecidableEq, Repr

/-- A sequence of `addLeds` calls, in order. -/
def addAll (s : State) (regs : List Registration) : State :=
  regs.foldl (fun st g => (addLeds st g.pLed g.data g.nLedsOrOffset g.nLedsIfOffset).1) s

/-- The minimum interval after one `addLeds` call (which hands the native rate
to `setMaxRefreshRate` in constrain mode), as a function of the interval before. -/
def stepInterval (m : Nat) (g : Registration) : Nat :=
  if g.pLed.maxRefreshRate > 0 then max m (1000000 / g.pLed.maxRefreshRate) else m

/-- Division by a `uint32_t` divisor; a zero divisor has no result. -/
def udiv (a b : Nat) : Option Nat := if b = 0 then none else some (a / b)

/-- Conversion of an `int` to `uint32_t`. -/
def toU32 (x : Int) : Nat := (x % 2 ^ 32).toNat

/-- Method `PicoLED::countFPS(int nFrames)`. The counter `br` is compared
before it is incremented; a recomputation reads the timer twice. The result
is `none` if the division had a zero divisor. -/
def countFPS (clock : Nat → Nat) (s : State) (nFrames : Int) : Option State :=
  let s1 : State := { s with br := s.br + 1 }
  if s.br ≥ nFrames then
    let now0 := u32sub (millis (clock s1.reads)) s1.lastframe
    let now := if now0 = 0 then 1 else now0
    match udiv (toU32 (s1.br * 1000)) now with
    | none => none
    | some q =>
      some { s1 with
             nFPS := q % 2 ^ 16
             br := 0
             lastframe := millis (clock (s1.reads + 1))
             reads := s1.reads + 2 }
  else some s1

/-- Method `getFPS()`. -/
def getFPS (s : State) : Nat := s.nFPS

/-- Method `setBrightness(uint8_t scale)`: the body `scale = scale;` assigns
the parameter to itself. -/
def setBrightness (s : State) (_scale : Nat) : State := s

/-- Method `getBrightness()`. -/
def getBrightness (s : State) : Nat := s.scale

/-- The guard `while(nMinMicros && ((micros()-lastshow) < nMinMicros));`.
Each evaluation of the condition with `nMinMicros` non-zero reads the timer
once; `fuel` bounds the number of evaluations. Returns the number of timer
reads made when the loop is left, `none` if the fuel runs out first. -/
def spinWait (clock : Nat → Nat) (nMinMicros lastshow : Nat) : Nat → Nat → Option Nat
  | fuel, reads =>
    if nMinMicros = 0 then some reads
    else
      match fuel with
      | 0 => none
      | fuel + 1 =>
        if u32sub (micros (clock reads)) lastshow < nMinMicros then
          spinWait clock nMinMicros lastshow fuel (reads + 1)
        else some (reads + 1)

/-- The statement `lastshow = micros();` after the guard, given the number of
timer reads `k` made so far. -/
def stampFrame (clock : Nat → Nat) (s : State) (k : Nat) : State :=
  { s with
    lastshow := micros (clock k)
    reads := k + 1
    frameStarts := s.frameStarts ++ [clock k] }

/-- The brightness after `if(pPowerFunc) { scale = (*pPowerFunc)(scale, nPowerData); }`. -/
def powerScale (s : State) (scale : Nat) : Nat :=
  match s.pPowerFunc with
  | some f => f scale s.nPowerData
  | none => scale

/-- The controller loop of `show`: for each controller of the chain, save the
dither mode, force it to 0 when `nFPS < 100`, flush, restore the saved mode.
Returns the controllers after the loop and the calls made. -/
def showLoop (nFPS scale : Nat) : List CLEDController → List CLEDController × List DriverCall
  | [] => ([], [])
  | pCur :: next =>
    let d := pCur.dither
    let c1 : CLEDController := if nFPS < 100 then { pCur with dither := 0 } else pCur
    let e1 : List DriverCall := if nFPS < 100 then [DriverCall.setDither pCur.id 0] else []
    let e2 : List DriverCall := [DriverCall.showLeds c1.id scale c1.dither]
    let c2 : CLEDController := { c1 with dither := d }
    let e3 : List DriverCall := [DriverCall.setDither c1.id d]
    let rest := showLoop nFPS scale next
    (c2 :: rest.1, e1 ++ e2 ++ e3 ++ rest.2)

/-- The controller loop of `showColor`. -/
def showColorLoop (nFPS : Nat) (color : CRGB) (scale : Nat) :
    List CLEDController → List CLEDController × List DriverCall
  | [] => ([], [])
  | pCur :: next =>
    let d := pCur.dither
    let c1 : CLEDController := if nFPS < 100 then { pCur with dither := 0 } else pCur
    let e1 : List DriverCall := if nFPS < 100 then [DriverCall.setDither pCur.id 0] else []
    let e2 : List DriverCall := [DriverCall.showColor c1.id color scale c1.dither]
    let c2 : CLEDController := { c1 with dither := d }
    let e3 : List DriverCall := [DriverCall.setDither c1.id d]
    let rest := showColorLoop nFPS color scale next
    (c2 :: rest.1, e1 ++ e2 ++ e3 ++ rest.2)

/-- Method `PicoLED::show(uint8_t scale)`. The result is `none` if the guard
loop is not left within `fuel` evaluations of its condition. -/
def «show» (clock : Nat → Nat) (fuel : Nat) (s : State) (scale : Nat) : Option State :=
  match spinWait clock s.nMinMicros s.lastshow fuel s.reads with
  | none => none
  | some k =>
    let s1 := stampFrame clock s k
    let scale1 := powerScale s1 scale
    let r := showLoop s1.nFPS scale1 s1.controllers
    countFPS clock { s1 with controllers := r.1, calls := s1.calls ++ r.2 } 25

/-- Method `PicoLED::showColor(const CRGB & color, uint8_t scale)`. -/
def showColor (clock : Nat → Nat) (fuel : Nat) (s : State) (color : CRGB) (scale : Nat) :
    Option State :=
  match spinWait clock s.nMinMicros s.lastshow fuel s.reads with
  | none => none
  | some k =>
    let s1 := stampFrame clock s k
    let scale1 := powerScale s1 scale
    let r := showColorLoop s1.nFPS color scale1 s1.controllers
    countFPS clock { s1 with controllers := r.1, calls := s1.calls ++ r.2 } 25

/-- The controller loop of `clearData`: `clearLedData()` on each controller of
the chain (the pixel contents are not part of the model). -/
def clearDataLoop : List CLEDController → List CLEDController × List DriverCall
  | [] => ([], [])
  | pCur :: next =>
    let rest := clearDataLoop next
    (pCur :: rest.1, DriverCall.clearLedData pCur.id :: rest.2)

/-- Method `PicoLED::clearData()`. -/
def clearData (s : State) : State :=
  let r := clearDataLoop s.controllers
  { s with controllers := r.1, calls := s.calls ++ r.2 }

/-- Method `PicoLED::clear(bool writeData)`. -/
def clear (clock : Nat → Nat) (fuel : Nat) (s : State) (writeData : Bool) : Option State :=
  if writeData then
    match showColor clock fuel s ⟨0, 0, 0⟩ 0 with
    | none => none
    | some s1 => some (clearData s1)
  else some (clearData s)

/-- The controller loop of `setTemperature`. -/
def setTemperatureLoop (temp : CRGB) :
    List CLEDController → List CLEDController × List DriverCall
  | [] => ([], [])
  | pCur :: next =>
    let rest := setTemperatureLoop temp next
    ({ pCur with temperature := temp } :: rest.1,
      DriverCall.setTemperature pCur.id temp :: rest.2)

/-- Method `PicoLED::setTemperature(const CRGB & temp)`. -/
def setTemperature (s : State) (temp : CRGB) : State :=
  let r := setTemperatureLoop temp s.controllers
  { s with controllers := r.1, calls := s.calls ++ r.2 }

/-- The controller loop of `setCorrection`. -/
def setCorrectionLoop (correction : CRGB) :
    List CLEDController → List CLEDController × List DriverCall
  | [] => ([], [])
  | pCur :: next =>
    let rest := setCorrectionLoop correction next
    ({ pCur with correction := correction } :: rest.1,
      DriverCall.setCorrection pCur.id correction :: rest.2)

/-- Method `PicoLED::setCorrection(const CRGB & correction)`. -/
def setCorrection (s : State) (correction : CRGB) : State :=
  let r := setCorrectionLoop correction s.controllers
  { s with controllers := r.1, calls := s.calls ++ r.2 }

/-- The controller loop of `setDither`. -/
def setDitherLoop (ditherMode : Nat) :
    List CLEDController → List CLEDController × List DriverCall
  | [] => ([], [])
  | pCur :: next =>
    let rest := setDitherLoop ditherMode next
    ({ pCur with dither := ditherMode } :: rest.1,
      DriverCall.setDither pCur.id ditherMode :: rest.2)

/-- Method `PicoLED::setDither(uint8_t ditherMode)`. -/
def setDither (s : State) (ditherMode : Nat) : State :=
  let r := setDitherLoop ditherMode s.controllers
  { s with controllers := r.1, calls := s.calls ++ r.2 }

/-- One render request: a call of `show` or of `showColor`. -/
inductive Render where
  | show (scale : Nat)
  | showColor (color : CRGB) (scale : Nat)
  deriving DecidableEq, Repr

/-- Performs one render request. -/
def render (clock : Nat → Nat) (fuel : Nat) (s : State) : Render → Option State
  | Render.show scale => «show» clock fuel s scale
  | Render.showColor color scale => showColor clock fuel s color scale

/-- Consecutive render requests, in order; `none` as soon as one of them does
not return within the fuel. -/
def renderSeq (clock : Nat → Nat) (fuel : Nat) : List Render → State → Option State
  | [], s => some s
  | q :: qs, s =>
    match render clock fuel s q with
    | none => none
    | some s1 => renderSeq clock fuel qs s1

/-- A sequence of `countFPS(nFrames)` calls. -/
def countFPSN (clock : Nat → Nat) (nFrames : Int) : Nat → State → Option State
  | 0, s => some s
  | n + 1, s =>
    match countFPS clock s nFrames with
    | none => none
    | some s1 => countFPSN clock nFrames n s1

/-- A registration of a controller with the given native rate (a strip of one
pixel at base 0). -/
def regOfRate (i : Nat) (rate : Nat) : Registration :=
  { pLed := { id := i, maxRefreshRate := rate }, data := 0, nLedsOrOffset := 1 }

/-- The flushes among the calls: for a `showLeds` or `showColor` call, the
controller and the dither mode it had at the moment of the flush. -/
def flushDither : DriverCall → Option (Nat × Nat)
  | DriverCall.showLeds id _ dither => some (id, dither)
  | DriverCall.showColor id _ _ dither => some (id, dither)
  | _ => none

/-- The flushes among the calls: for a `showLeds` or `showColor` call, the
controller, the colour (for `showColor`) and the brightness passed. -/
def flushArgs : DriverCall → Option (Nat × Option CRGB × Nat)
  | DriverCall.showLeds id scale _ => some (id, none, scale)
  | DriverCall.showColor id color scale _ => some (id, some color, scale)
  | _ => none

/-- A sample timer: every read returns a value 1000 microseconds later than
the read before. -/
def tickClock (k : Nat) : Nat := 1000 * k

/-- A sample orchestrator: one controller with a native ceiling of 400 Hz and
one with 1000 Hz, registered on a fresh orchestrator (minimum interval 2500). -/
def twoStrips : State := addAll init [regOfRate 0 400, regOfRate 1 1000]

/-- Wrap-around of a 32-bit `int` (two's complement). -/
def toInt32 (x : Int) : Int := (x + 2 ^ 31) % 2 ^ 32 - 2 ^ 31

/-- The loop of `count`: `++x` for each controller of the chain. -/
def countLoop : Int → List CLEDController → Int
  | x, [] => x
  | x, _ :: next => countLoop (toInt32 (x + 1)) next

/-- Method `PicoLED::count()`. -/
def count (s : State) : Int := countLoop 0 s.controllers

/-- The loop `while(x-- && pCur) { pCur = pCur->next(); }` of `operator[]`:
the rest of the chain from `pCur` when the loop is left (`[]` for `NULL`). -/
def indexLoop : Int → List CLEDController → List CLEDController
  | _, [] => []
  | x, pCur :: next => if x ≠ 0 then indexLoop (toInt32 (x - 1)) next else pCur :: next

/-- Method `PicoLED::operator[](int x)`: the controller the returned reference
denotes; `none` when the reference is `*head()` of an empty chain. -/
def operatorIndex (s : State) (x : Int) : Option CLEDController :=
  match indexLoop x s.controllers with
  | [] => s.controllers.head?
  | pCur :: _ => some pCur

/-- Method `show()` of PicoLED.h, the overload without argument:
`show(scale)` with the stored brightness. -/
def show0 (clock : Nat → Nat) (fuel : Nat) (s : State) : Option State :=
  «show» clock fuel s s.scale

/-- Method `setMaxPowerInMilliWatts(uint32_t milliwatts)`. The installed
function `calculate_max_brightness_for_power_mW` (power_mgt.h is not among the
sources) is the parameter `powerFn`. -/
def setMaxPowerInMilliWatts (powerFn : power_func) (s : State) (milliwatts : Nat) : State :=
  { s with pPowerFunc := some powerFn, nPowerData := milliwatts }

/-- Method `setMaxPowerInVoltsAndMilliamps(uint8_t volts, uint32_t milliamps)`. -/
def setMaxPowerInVoltsAndMilliamps (powerFn : power_func) (s : State) (volts milliamps : Nat) :
    State :=
  setMaxPowerInMilliWatts powerFn s ((volts * milliamps) % 2 ^ 32)

/-- Modelled from the spec: the busy waits `busy_wait_us_32` and
`busy_wait_us` of the platform (not among the sources), which only read the
timer until the given time has passed; `spins` is the number of timer reads
the wait makes. -/
def busy_wait_us (s : State) (_delay_us : Nat) (spins : Nat) : State :=
  { s with reads := s.reads + spins }

/-- Modelled from the spec: the 32-bit variant of the busy wait. -/
def busy_wait_us_32 (s : State) (_delay_us : Nat) (spins : Nat) : State :=
  { s with reads := s.reads + spins }

/-- Method `PicoLED::delay(uint32_t delay_ms)`. -/
def delay (s : State) (delay_ms : Nat) (spins : Nat) : State :=
  if delay_ms ≤ 0x7fffffff / 1000 then
    busy_wait_us_32 s ((delay_ms * 1000) % 2 ^ 32) spins
  else
    busy_wait_us s (delay_ms * 1000) spins

/-- One request to the frame-rate limiter: a registration with `addLeds`, or
a call of `setMaxRefreshRate`. -/
inductive LimiterOp where
  | addLeds (g : Registration)
  | setMaxRefreshRate (refresh : Nat) (constrain : Bool)
  deriving DecidableEq, Repr

/-- Performs one request to the limiter. -/
def applyOp (s : State) : LimiterOp → State
  | LimiterOp.addLeds g => (addLeds s g.pLed g.data g.nLedsOrOffset g.nLedsIfOffset).1
  | LimiterOp.setMaxRefreshRate refresh constrain => setMaxRefreshRate s refresh constrain

/-- A sequence of requests to the limiter, in order. -/
def applyOps (s : State) (ops : List LimiterOp) : State := ops.foldl applyOp s

/-- The rate a request names: the native ceiling of the registered driver, or
the rate passed to `setMaxRefreshRate`. -/
def requestedRate : LimiterOp → Nat
  | LimiterOp.addLeds g => g.pLed.maxRefreshRate
  | LimiterOp.setMaxRefreshRate refresh _ => refresh

/-- Whether a request is an override, a `setMaxRefreshRate` with
`constrain = false`. -/
def isOverride : LimiterOp → Bool
  | LimiterOp.addLeds _ => false
  | LimiterOp.setMaxRefreshRate _ constrain => !constrain

/-- The interval `1000000 / r` a rate asks for; a rate of 0 asks for none. -/
def intervalOf (r : Nat) : Nat := if r > 0 then 1000000 / r else 0

/-- The largest of the intervals asked for by the given requests, and `m`. -/
def largestInterval (m : Nat) (ops : List LimiterOp) : Nat :=
  (ops.map (fun o => intervalOf (requestedRate o))).foldl max m

/-- The first controller of the sample orchestrator, as registration left it. -/
def firstStrip : CLEDController :=
  { id := 0, data := 0, nLeds := 1, maxRefreshRate := 400, inits := 1 }

/-- A sample power function: half the requested brightness, whatever the
ceiling. -/
def halfPower : power_func := fun scale _ => scale / 2

/-- The sample orchestrator with the sample power function installed. -/
def twoStripsLimited : State := setMaxPowerInMilliWatts halfPower twoStrips 5000

/-- A run of 26 render requests: 25 calls of `show(128)` and a final
`showColor`. -/
def twentySixRenders : List Render :=
  List.replicate 25 (Render.show 128) ++ [Render.showColor ⟨1, 2, 3⟩ 64]

end PicoLED

namespace PicoLED

/-! ## The frame-rate ceiling: `setMaxRefreshRate` and `addLeds` -/

theorem setMaxRefreshRate_true_nMinMicros (s : State) (r : Nat) :
    (setMaxRefreshRate s r true).nMinMicros =
      if r > 0 then max s.nMinMicros (1000000 / r) else s.nMinMicros := by
  unfold setMaxRefreshRate
  by_cases hr : r > 0
  · simp only [hr, if_true]
    by_cases h : 1000000 / r > s.nMinMicros
    · simp [h, Nat.max_eq_right (Nat.le_of_lt h)]
    · simp only [h, if_false]
      exact (Nat.max_eq_left (Nat.le_of_not_lt h)).symm
  · simp [hr]

theorem addLeds_nMinMicros (s : State) (pLed : CLEDController) (data a b : Int) :
    (addLeds s pLed data a b).1.nMinMicros =
      if pLed.maxRefreshRate > 0 then max s.nMinMicros (1000000 / pLed.maxRefreshRate)
      else s.nMinMicros := by
  unfold addLeds
  simp only [setMaxRefreshRate_true_nMinMicros]

theorem addAll_nMinMicros (regs : List Registration) (s : State) :
    (addAll s regs).nMinMicros = regs.foldl stepInterval s.nMinMicros := by
  induction regs generalizing s with
  | nil => rfl
  | cons g gs ih =>
    have h := ih (addLeds s g.pLed g.data g.nLedsOrOffset g.nLedsIfOffset).1
    simp only [addAll, List.foldl_cons] at h ⊢
    rw [h, addLeds_nMinMicros]
    rfl

theorem foldl_stepInterval_ge (regs : List Registration) (m : Nat) :
    m ≤ regs.foldl stepInterval m := by
  induction regs generalizing m with
  | nil => exact Nat.le_refl m
  | cons g gs ih =>
    simp only [List.foldl_cons]
    refine Nat.le_trans ?_ (ih (stepInterval m g))
    unfold stepInterval
    split
    · exact Nat.le_max_left _ _
    · exact Nat.le_refl m

theorem foldl_stepInterval_mem_le (regs : List Registration) (m : Nat) (g : Registration)
    (hg : g ∈ regs) (hpos : 0 < g.pLed.maxRefreshRate) :
    1000000 / g.pLed.maxRefreshRate ≤ regs.foldl stepInterval m := by
  induction regs generalizing m with
  | nil => cases hg
  | cons x xs ih =>
    simp only [List.foldl_cons]
    rcases List.mem_cons.mp hg with h | h
    · subst h
      refine Nat.le_trans ?_ (foldl_stepInterval_ge xs _)
      unfold stepInterval
      rw [if_pos hpos]
      exact Nat.le_max_right _ _
    · exact ih _ h

theorem foldl_stepInterval_le (regs : List Registration) (m B : Nat) (hm : m ≤ B)
    (hB : ∀ x ∈ regs, 0 < x.pLed.maxRefreshRate → 1000000 / x.pLed.maxRefreshRate ≤ B) :
    regs.foldl stepInterval m ≤ B := by
  induction regs generalizing m with
  | nil => exact hm
  | cons x xs ih =>
    simp only [List.foldl_cons]
    apply ih
    · unfold stepInterval
      split
      · exact Nat.max_le.mpr ⟨hm, hB x (List.mem_cons_self x xs) (by assumption)⟩
      · exact hm
    · intro y hy hpos
      exact hB y (List.mem_cons_of_mem x hy) hpos

theorem addAll_slowest (s : State) (regs : List Registration) (g : Registration)
    (h0 : s.nMinMicros = 0)
    (hpos : ∀ x ∈ regs, 0 < x.pLed.maxRefreshRate)
    (hg : g ∈ regs)
    (hmin : ∀ x ∈ regs, g.pLed.maxRefreshRate ≤ x.pLed.maxRefreshRate) :
    (addAll s regs).nMinMicros = 1000000 / g.pLed.maxRefreshRate := by
  rw [addAll_nMinMicros, h0]
  apply Nat.le_antisymm
  · apply foldl_stepInterval_le
    · exact Nat.zero_le _
    · intro x hx _
      exact Nat.div_le_div_left (hmin x hx) (hpos g hg)
  · exact foldl_stepInterval_mem_le regs 0 g hg (hpos g hg)

/-! ## The estimator `countFPS` and the render pass: frame lemmas -/

theorem fps_divisor_ne_zero (e : Nat) : (if e = 0 then 1 else e) ≠ 0 := by
  split <;> omega

theorem countFPS_frame (clock : Nat → Nat) (s : State) (nFrames : Int) :
    ∃ s', countFPS clock s nFrames = some s'
      ∧ s'.scale = s.scale ∧ s'.nMinMicros = s.nMinMicros
      ∧ s'.nPowerData = s.nPowerData ∧ s'.pPowerFunc = s.pPowerFunc
      ∧ s'.lastshow = s.lastshow ∧ s'.controllers = s.controllers
      ∧ s'.calls = s.calls ∧ s'.frameStarts = s.frameStarts
      ∧ s.reads ≤ s'.reads := by
  unfold countFPS
  by_cases h : s.br ≥ nFrames
  · simp only [h, if_true, udiv, fps_divisor_ne_zero, if_false]
    exact ⟨_, rfl, rfl, rfl, rfl, rfl, rfl, rfl, rfl, rfl, Nat.le_add_right _ _⟩
  · simp only [h, if_false]
    exact ⟨_, rfl, rfl, rfl, rfl, rfl, rfl, rfl, rfl, rfl, Nat.le_refl _⟩

theorem spinWait_zero (clock : Nat → Nat) (lastshow fuel reads : Nat) :
    spinWait clock 0 lastshow fuel reads = some reads := by
  unfold spinWait
  simp

theorem spinWait_ready (clock : Nat → Nat) (I lastshow : Nat) (hI : I ≠ 0) :
    ∀ (fuel reads k : Nat), spinWait clock I lastshow fuel reads = some k →
      reads < k ∧ I ≤ u32sub (micros (clock (k - 1))) lastshow := by
  intro fuel
  induction fuel with
  | zero =>
    intro reads k h
    unfold spinWait at h
    simp [hI] at h
  | succ n ih =>
    intro reads k h
    unfold spinWait at h
    simp only [hI, if_false] at h
    by_cases hc : u32sub (micros (clock reads)) lastshow < I
    · simp only [hc, if_true] at h
      have := ih (reads + 1) k h
      exact ⟨by omega, this.2⟩
    · simp only [hc, if_false, Option.some.injEq] at h
      subst h
      exact ⟨Nat.lt_succ_self _, by simpa using Nat.le_of_not_lt hc⟩

theorem spinWait_ge (clock : Nat → Nat) (I lastshow fuel reads k : Nat)
    (h : spinWait clock I lastshow fuel reads = some k) : reads ≤ k := by
  by_cases hI : I = 0
  · subst hI
    rw [spinWait_zero] at h
    exact Nat.le_of_eq (Option.some.inj h)
  · exact Nat.le_of_lt (spinWait_ready clock I lastshow hI fuel reads k h).1

/-- If the guard is satisfied at the `e`-th timer read from now, `e + 1`
evaluations of the condition leave the loop. -/
theorem spinWait_terminates (clock : Nat → Nat) (I lastshow : Nat) :
    ∀ (e reads : Nat), I ≤ u32sub (micros (clock (reads + e))) lastshow →
      ∃ k, spinWait clock I lastshow (e + 1) reads = some k := by
  intro e
  induction e with
  | zero =>
    intro reads h
    unfold spinWait
    by_cases hI : I = 0
    · exact ⟨reads, by simp [hI]⟩
    · have hc : ¬ u32sub (micros (clock reads)) lastshow < I := Nat.not_lt.mpr h
      exact ⟨reads + 1, by simp [hI, hc]⟩
  | succ n ih =>
    intro reads h
    unfold spinWait
    by_cases hI : I = 0
    · exact ⟨reads, by simp [hI]⟩
    · by_cases hc : u32sub (micros (clock reads)) lastshow < I
      · have h2 : I ≤ u32sub (micros (clock (reads + 1 + n))) lastshow := by
          have : reads + 1 + n = reads + (n + 1) := by omega
          rw [this]; exact h
        obtain ⟨k, hk⟩ := ih (reads + 1) h2
        exact ⟨k, by simp [hI, hc, hk]⟩
      · exact ⟨reads + 1, by simp [hI, hc]⟩

/-- True elapsed time from the wrapped difference: for timer values `a ≤ b`,
a wrapped difference of at least `I` means that `b` is at least `I` later. -/
theorem elapsed_of_u32sub (a b I : Nat) (hab : a ≤ b)
    (h : I ≤ u32sub (micros b) (micros a)) : a + I ≤ b := by
  unfold u32sub micros at h
  norm_num at h
  omega

/-- On a timer that never stands still for ever and never jumps by more than
`2^32 - I` between two reads, some read satisfies the guard of the limiter. -/
theorem guard_eventually_open (clock : Nat → Nat) (hmono : Monotone clock)
    (I lastshow reads : Nat)
    (hstep : ∀ k, clock (k + 1) + I ≤ clock k + 2 ^ 32)
    (hunb : ∀ t, ∃ k, t ≤ clock k) :
    ∃ e, I ≤ u32sub (micros (clock (reads + e))) lastshow := by
  by_cases h0 : I ≤ u32sub (micros (clock reads)) lastshow
  · exact ⟨0, h0⟩
  · have hd : u32sub (micros (clock reads)) lastshow < I := Nat.lt_of_not_le h0
    have hex : ∃ e, clock reads + (I - u32sub (micros (clock reads)) lastshow)
        ≤ clock (reads + e) := by
      obtain ⟨k, hk⟩ := hunb (clock reads + (I - u32sub (micros (clock reads)) lastshow))
      have hrk : reads ≤ k := by
        by_contra hlt
        have := hmono (Nat.le_of_lt (Nat.lt_of_not_le hlt))
        omega
      exact ⟨k - reads, by rw [Nat.add_sub_cancel' hrk]; exact hk⟩
    have hfind := Nat.find_spec hex
    have hmin := fun m => Nat.find_min hex (m := m)
    generalize Nat.find hex = e at hfind hmin
    have hepos : e ≠ 0 := by
      intro he
      subst he
      simp only [Nat.add_zero] at hfind
      omega
    obtain ⟨n, rfl⟩ := Nat.exists_eq_succ_of_ne_zero hepos
    have hprev := hmin n (Nat.lt_succ_self n)
    have hs := hstep (reads + n)
    refine ⟨n + 1, ?_⟩
    have e1 : reads + (n + 1) = reads + n + 1 := by omega
    rw [e1]
    rw [Nat.succ_eq_add_one, e1] at hfind
    generalize clock (reads + n + 1) = c at hfind hs ⊢
    generalize clock (reads + n) = cp at hprev hs
    generalize clock reads = c0 at hd hfind hprev
    unfold u32sub micros at hd hfind hprev ⊢
    norm_num at hd hfind hprev hs ⊢
    omega

/-- On such a timer the guard loop of `show` and `showColor` is left, given
enough fuel. -/
theorem spinWait_returns (clock : Nat → Nat) (hmono : Monotone clock)
    (I lastshow reads : Nat)
    (hstep : ∀ k, clock (k + 1) + I ≤ clock k + 2 ^ 32)
    (hunb : ∀ t, ∃ k, t ≤ clock k) :
    ∃ fuel k, spinWait clock I lastshow fuel reads = some k := by
  obtain ⟨e, he⟩ := guard_eventually_open clock hmono I lastshow reads hstep hunb
  obtain ⟨k, hk⟩ := spinWait_terminates clock I lastshow e reads he
  exact ⟨e + 1, k, hk⟩

theorem show_of_spin (clock : Nat → Nat) (fuel : Nat) (s : State) (scale k : Nat)
    (h : spinWait clock s.nMinMicros s.lastshow fuel s.reads = some k) :
    ∃ s', «show» clock fuel s scale = some s'
      ∧ s'.nMinMicros = s.nMinMicros
      ∧ s'.frameStarts = s.frameStarts ++ [clock k]
      ∧ s'.lastshow = micros (clock k)
      ∧ k < s'.reads
      ∧ s'.controllers = (showLoop s.nFPS (powerScale s scale) s.controllers).1
      ∧ s'.calls = s.calls ++ (showLoop s.nFPS (powerScale s scale) s.controllers).2 := by
  unfold «show»
  rw [h]
  simp only
  obtain ⟨s', hs', -, h2, -, -, h5, h6, h7, h8, h9⟩ := countFPS_frame clock
    { stampFrame clock s k with
      controllers := (showLoop (stampFrame clock s k).nFPS
        (powerScale (stampFrame clock s k) scale) (stampFrame clock s k).controllers).1
      calls := (stampFrame clock s k).calls ++ (showLoop (stampFrame clock s k).nFPS
        (powerScale (stampFrame clock s k) scale) (stampFrame clock s k).controllers).2 } 25
  refine ⟨s', hs', h2, h8, h5, ?_, h6, h7⟩
  exact Nat.lt_of_lt_of_le (Nat.lt_succ_self k) h9

theorem showColor_of_spin (clock : Nat → Nat) (fuel : Nat) (s : State) (color : CRGB)
    (scale k : Nat)
    (h : spinWait clock s.nMinMicros s.lastshow fuel s.reads = some k) :
    ∃ s', showColor clock fuel s color scale = some s'
      ∧ s'.nMinMicros = s.nMinMicros
      ∧ s'.frameStarts = s.frameStarts ++ [clock k]
      ∧ s'.lastshow = micros (clock k)
      ∧ k < s'.reads
      ∧ s'.controllers = (showColorLoop s.nFPS color (powerScale s scale) s.controllers).1
      ∧ s'.calls = s.calls
          ++ (showColorLoop s.nFPS color (powerScale s scale) s.controllers).2 := by
  unfold showColor
  rw [h]
  simp only
  obtain ⟨s', hs', -, h2, -, -, h5, h6, h7, h8, h9⟩ := countFPS_frame clock
    { stampFrame clock s k with
      controllers := (showColorLoop (stampFrame clock s k).nFPS color
        (powerScale (stampFrame clock s k) scale) (stampFrame clock s k).controllers).1
      calls := (stampFrame clock s k).calls ++ (showColorLoop (stampFrame clock s k).nFPS color
        (powerScale (stampFrame clock s k) scale) (stampFrame clock s k).controllers).2 } 25
  refine ⟨s', hs', h2, h8, h5, ?_, h6, h7⟩
  exact Nat.lt_of_lt_of_le (Nat.lt_succ_self k) h9

theorem show_some_spin (clock : Nat → Nat) (fuel : Nat) (s s' : State) (scale : Nat)
    (h : «show» clock fuel s scale = some s') :
    ∃ k, spinWait clock s.nMinMicros s.lastshow fuel s.reads = some k := by
  unfold «show» at h
  cases hk : spinWait clock s.nMinMicros s.lastshow fuel s.reads with
  | none => rw [hk] at h; cases h
  | some k => exact ⟨k, rfl⟩

theorem showColor_some_spin (clock : Nat → Nat) (fuel : Nat) (s s' : State) (color : CRGB)
    (scale : Nat) (h : showColor clock fuel s color scale = some s') :
    ∃ k, spinWait clock s.nMinMicros s.lastshow fuel s.reads = some k := by
  unfold showColor at h
  cases hk : spinWait clock s.nMinMicros s.lastshow fuel s.reads with
  | none => rw [hk] at h; cases h
  | some k => exact ⟨k, rfl⟩

/-- What one render request leaves behind: the guard was left after `k` timer
reads, and the `k`-th read is the recorded frame start. -/
theorem render_frame (clock : Nat → Nat) (fuel : Nat) (s s' : State) (q : Render)
    (h : render clock fuel s q = some s') :
    ∃ k, spinWait clock s.nMinMicros s.lastshow fuel s.reads = some k
      ∧ s'.nMinMicros = s.nMinMicros
      ∧ s'.frameStarts = s.frameStarts ++ [clock k]
      ∧ s'.lastshow = micros (clock k)
      ∧ k < s'.reads := by
  cases q with
  | «show» scale =>
    obtain ⟨k, hk⟩ := show_some_spin clock fuel s s' scale h
    obtain ⟨s2, hs2, a, b, c, d, -, -⟩ := show_of_spin clock fuel s scale k hk
    have : s2 = s' := Option.some.inj (hs2.symm.trans h)
    subst this
    exact ⟨k, hk, a, b, c, d⟩
  | showColor color scale =>
    obtain ⟨k, hk⟩ := showColor_some_spin clock fuel s s' color scale h
    obtain ⟨s2, hs2, a, b, c, d, -, -⟩ := showColor_of_spin clock fuel s color scale k hk
    have : s2 = s' := Option.some.inj (hs2.symm.trans h)
    subst this
    exact ⟨k, hk, a, b, c, d⟩

theorem spinWait_more_fuel (clock : Nat → Nat) (I lastshow : Nat) :
    ∀ (fuel reads k n : Nat), spinWait clock I lastshow fuel reads = some k →
      spinWait clock I lastshow (fuel + n) reads = some k := by
  intro fuel
  induction fuel with
  | zero =>
    intro reads k n h
    unfold spinWait at h
    by_cases hI : I = 0
    · unfold spinWait
      simpa [hI] using h
    · simp [hI] at h
  | succ m ih =>
    intro reads k n h
    have e : m + 1 + n = (m + n) + 1 := by omega
    rw [e]
    unfold spinWait at h ⊢
    by_cases hI : I = 0
    · simpa [hI] using h
    · simp only [hI, if_false] at h ⊢
      by_cases hc : u32sub (micros (clock reads)) lastshow < I
      · simp only [hc, if_true] at h ⊢
        exact ih (reads + 1) k n h
      · simpa [hc] using h

theorem render_more_fuel (clock : Nat → Nat) (fuel n : Nat) (s s' : State) (q : Render)
    (h : render clock fuel s q = some s') : render clock (fuel + n) s q = some s' := by
  cases q with
  | «show» scale =>
    obtain ⟨k, hk⟩ := show_some_spin clock fuel s s' scale h
    have hk2 := spinWait_more_fuel clock s.nMinMicros s.lastshow fuel s.reads k n hk
    simp only [render, «show», hk, hk2] at h ⊢
    exact h
  | showColor color scale =>
    obtain ⟨k, hk⟩ := showColor_some_spin clock fuel s s' color scale h
    have hk2 := spinWait_more_fuel clock s.nMinMicros s.lastshow fuel s.reads k n hk
    simp only [render, showColor, hk, hk2] at h ⊢
    exact h

theorem renderSeq_more_fuel (clock : Nat → Nat) (fuel n : Nat) :
    ∀ (qs : List Render) (s s' : State), renderSeq clock fuel qs s = some s' →
      renderSeq clock (fuel + n) qs s = some s' := by
  intro qs
  induction qs with
  | nil => intro s s' h; simpa [renderSeq] using h
  | cons q qs ih =>
    intro s s' h
    simp only [renderSeq] at h ⊢
    cases hr : render clock fuel s q with
    | none => rw [hr] at h; cases h
    | some s1 =>
      rw [hr] at h
      rw [render_more_fuel clock fuel n s s1 q hr]
      exact ih s1 s' h

theorem render_of_spin (clock : Nat → Nat) (fuel : Nat) (s : State) (q : Render) (k : Nat)
    (h : spinWait clock s.nMinMicros s.lastshow fuel s.reads = some k) :
    ∃ s', render clock fuel s q = some s' ∧ s'.nMinMicros = s.nMinMicros := by
  cases q with
  | «show» scale =>
    obtain ⟨s', h1, h2, -⟩ := show_of_spin clock fuel s scale k h
    exact ⟨s', h1, h2⟩
  | showColor color scale =>
    obtain ⟨s', h1, h2, -⟩ := showColor_of_spin clock fuel s color scale k h
    exact ⟨s', h1, h2⟩

/-- On a monotone timer that never stands still for ever and never jumps by
more than `2^32 - nMinMicros` between two reads, every run of `show` and
`showColor` calls returns, given enough fuel. -/
theorem renderSeq_returns (clock : Nat → Nat) (hmono : Monotone clock) (I : Nat)
    (hstep : ∀ k, clock (k + 1) + I ≤ clock k + 2 ^ 32)
    (hunb : ∀ t, ∃ k, t ≤ clock k) :
    ∀ (qs : List Render) (s : State), s.nMinMicros = I →
      ∃ fuel s', renderSeq clock fuel qs s = some s' := by
  intro qs
  induction qs with
  | nil => intro s _; exact ⟨0, s, rfl⟩
  | cons q qs ih =>
    intro s hs
    obtain ⟨f1, k, hk⟩ := spinWait_returns clock hmono I s.lastshow s.reads hstep hunb
    rw [← hs] at hk
    obtain ⟨s1, h1, h2⟩ := render_of_spin clock f1 s q k hk
    obtain ⟨f2, s', h3⟩ := ih s1 (h2.trans hs)
    refine ⟨f1 + f2, s', ?_⟩
    simp only [renderSeq]
    rw [render_more_fuel clock f1 f2 s s1 q h1]
    have := renderSeq_more_fuel clock f2 f1 qs s1 s' h3
    rwa [Nat.add_comm] at this

theorem chain_getElem (R : Nat → Nat → Prop) :
    ∀ (l : List Nat) (a : Nat), List.Chain R a l →
      ∀ i x y, (a :: l)[i]? = some x → (a :: l)[i + 1]? = some y → R x y := by
  intro l
  induction l with
  | nil =>
    intro a _ i x y _ hy
    simp at hy
  | cons b l ih =>
    intro a hc i x y hx hy
    obtain ⟨hab, hrest⟩ := List.chain_cons.mp hc
    cases i with
    | zero =>
      simp only [List.getElem?_cons_zero, Option.some.injEq] at hx
      simp only [zero_add, List.getElem?_cons_succ, List.getElem?_cons_zero,
        Option.some.injEq] at hy
      subst hx; subst hy
      exact hab
    | succ n =>
      simp only [List.getElem?_cons_succ] at hx hy
      exact ih b hrest n x y hx (by simpa using hy)

/-- The spacing of the frame starts of a run that follows a frame recorded at
timer read `j`. -/
theorem renderSeq_chain (clock : Nat → Nat) (hmono : Monotone clock) (fuel I : Nat)
    (hI : 0 < I) :
    ∀ (qs : List Render) (s s' : State) (j : Nat),
      s.nMinMicros = I → j < s.reads → s.lastshow = micros (clock j) →
      renderSeq clock fuel qs s = some s' →
      ∃ ts, s'.frameStarts = s.frameStarts ++ ts ∧ ts.length = qs.length
        ∧ List.Chain (fun a b => a + I ≤ b) (clock j) ts
        ∧ s'.lastshow = micros (((clock j) :: ts).getLast (List.cons_ne_nil _ _)) := by
  intro qs
  induction qs with
  | nil =>
    intro s s' j _ _ hl h
    simp only [renderSeq, Option.some.injEq] at h
    subst h
    exact ⟨[], by simp, rfl, List.Chain.nil, by simpa using hl⟩
  | cons q qs ih =>
    intro s s' j hmin hj hl h
    simp only [renderSeq] at h
    cases hr : render clock fuel s q with
    | none => rw [hr] at h; cases h
    | some s1 =>
      rw [hr] at h
      obtain ⟨k, hk, h1, h2, h3, h4⟩ := render_frame clock fuel s s1 q hr
      have hI' : s.nMinMicros ≠ 0 := by omega
      obtain ⟨hlt, hready⟩ := spinWait_ready clock s.nMinMicros s.lastshow hI' fuel s.reads k hk
      have hjk : j ≤ k - 1 := by omega
      have hstep : clock j + I ≤ clock k := by
        have h5 : clock j + I ≤ clock (k - 1) := by
          apply elapsed_of_u32sub _ _ _ (hmono hjk)
          rw [← hl, ← hmin]; exact hready
        exact Nat.le_trans h5 (hmono (Nat.sub_le k 1))
      obtain ⟨ts, e1, e2, e3, e4⟩ := ih s1 s' k (h1.trans hmin) h4 h3 h
      refine ⟨clock k :: ts, ?_, ?_, List.Chain.cons hstep e3, ?_⟩
      · rw [e1, h2]; simp
      · simp [e2]
      · rw [e4]; simp [List.getLast_cons]

/-! ## The controller loops of `show` and `showColor` -/

theorem showLoop_controllers (nFPS scale : Nat) :
    ∀ cs : List CLEDController, (showLoop nFPS scale cs).1 = cs := by
  intro cs
  induction cs with
  | nil => rfl
  | cons c cs ih =>
    unfold showLoop
    by_cases h : nFPS < 100 <;> simp [h, ih]

theorem showColorLoop_controllers (nFPS : Nat) (color : CRGB) (scale : Nat) :
    ∀ cs : List CLEDController, (showColorLoop nFPS color scale cs).1 = cs := by
  intro cs
  induction cs with
  | nil => rfl
  | cons c cs ih =>
    unfold showColorLoop
    by_cases h : nFPS < 100 <;> simp [h, ih]

theorem showLoop_flushDither (nFPS scale : Nat) :
    ∀ cs : List CLEDController,
      (showLoop nFPS scale cs).2.filterMap flushDither
        = cs.map (fun c => (c.id, if nFPS < 100 then 0 else c.dither)) := by
  intro cs
  induction cs with
  | nil => rfl
  | cons c cs ih =>
    unfold showLoop
    by_cases h : nFPS < 100 <;> simp [h, ih, flushDither, List.filterMap_append]

theorem showColorLoop_flushDither (nFPS : Nat) (color : CRGB) (scale : Nat) :
    ∀ cs : List CLEDController,
      (showColorLoop nFPS color scale cs).2.filterMap flushDither
        = cs.map (fun c => (c.id, if nFPS < 100 then 0 else c.dither)) := by
  intro cs
  induction cs with
  | nil => rfl
  | cons c cs ih =>
    unfold showColorLoop
    by_cases h : nFPS < 100 <;> simp [h, ih, flushDither, List.filterMap_append]

theorem showLoop_flushArgs (nFPS scale : Nat) :
    ∀ cs : List CLEDController,
      (showLoop nFPS scale cs).2.filterMap flushArgs
        = cs.map (fun c => (c.id, none, scale)) := by
  intro cs
  induction cs with
  | nil => rfl
  | cons c cs ih =>
    unfold showLoop
    by_cases h : nFPS < 100 <;> simp [h, ih, flushArgs, List.filterMap_append]

theorem showColorLoop_flushArgs (nFPS : Nat) (color : CRGB) (scale : Nat) :
    ∀ cs : List CLEDController,
      (showColorLoop nFPS color scale cs).2.filterMap flushArgs
        = cs.map (fun c => (c.id, some color, scale)) := by
  intro cs
  induction cs with
  | nil => rfl
  | cons c cs ih =>
    unfold showColorLoop
    by_cases h : nFPS < 100 <;> simp [h, ih, flushArgs, List.filterMap_append]

theorem setTemperatureLoop_eq (temp : CRGB) :
    ∀ cs : List CLEDController,
      setTemperatureLoop temp cs
        = (cs.map (fun c => { c with temperature := temp }),
           cs.map (fun c => DriverCall.setTemperature c.id temp)) := by
  intro cs
  induction cs with
  | nil => rfl
  | cons c cs ih => simp [setTemperatureLoop, ih]

theorem setCorrectionLoop_eq (correction : CRGB) :
    ∀ cs : List CLEDController,
      setCorrectionLoop correction cs
        = (cs.map (fun c => { c with correction := correction }),
           cs.map (fun c => DriverCall.setCorrection c.id correction)) := by
  intro cs
  induction cs with
  | nil => rfl
  | cons c cs ih => simp [setCorrectionLoop, ih]

theorem setDitherLoop_eq (ditherMode : Nat) :
    ∀ cs : List CLEDController,
      setDitherLoop ditherMode cs
        = (cs.map (fun c => { c with dither := ditherMode }),
           cs.map (fun c => DriverCall.setDither c.id ditherMode)) := by
  intro cs
  induction cs with
  | nil => rfl
  | cons c cs ih => simp [setDitherLoop, ih]

theorem clearDataLoop_eq :
    ∀ cs : List CLEDController,
      clearDataLoop cs = (cs, cs.map (fun c => DriverCall.clearLedData c.id)) := by
  intro cs
  induction cs with
  | nil => rfl
  | cons c cs ih => simp [clearDataLoop, ih]

/-- Claim C1: with `constrain = true`, `setMaxRefreshRate(r, true)` leaves the
minimum interval equal to `max m (1000000 / r)` when `r > 0` and equal to `m`
when `r = 0`; the new interval is never smaller than `m`, and it differs from
`m` only when `1000000 / r` is strictly greater than `m`. -/
theorem setMaxRefreshRate_constrain_raises_only (s : State) (r : Nat) :
    (setMaxRefreshRate s r true).nMinMicros
        = (if r > 0 then max s.nMinMicros (1000000 / r) else s.nMinMicros)
      ∧ s.nMinMicros ≤ (setMaxRefreshRate s r true).nMinMicros
      ∧ ((setMaxRefreshRate s r true).nMinMicros ≠ s.nMinMicros →
          0 < r ∧ s.nMinMicros < 1000000 / r) := by
  have h := setMaxRefreshRate_true_nMinMicros s r
  refine ⟨h, ?_, ?_⟩
  · rw [h]
    split
    · exact Nat.le_max_left _ _
    · exact Nat.le_refl _
  · rw [h]
    intro hne
    by_cases hr : r > 0
    · rw [if_pos hr] at hne
      refine ⟨hr, ?_⟩
      by_contra hlt
      exact hne (Nat.max_eq_left (Nat.le_of_not_lt hlt))
    · rw [if_neg hr] at hne
      exact absurd rfl hne

/-- Claim C2: with `constrain = false`, `setMaxRefreshRate(r, false)` sets the
minimum interval to `1000000 / r` when `r > 0` and to `0` when `r = 0`,
whatever the previous interval was. -/
theorem setMaxRefreshRate_override (s : State) (r : Nat) :
    (setMaxRefreshRate s r false).nMinMicros = (if r > 0 then 1000000 / r else 0) := by
  unfold setMaxRefreshRate
  by_cases hr : r > 0 <;> simp [hr]

/-- Claim C3: from a minimum interval of 0, after registering with `addLeds`
a sequence of drivers whose native rates are all positive, the minimum
interval is `1000000 / r` for `r` the smallest of the rates (the slowest
driver), and every reordering of the registrations gives the same interval. -/
theorem addLeds_slowest_driver_wins (s : State) (regs regs' : List Registration)
    (g : Registration)
    (h0 : s.nMinMicros = 0)
    (hpos : ∀ x ∈ regs, 0 < x.pLed.maxRefreshRate)
    (hg : g ∈ regs)
    (hmin : ∀ x ∈ regs, g.pLed.maxRefreshRate ≤ x.pLed.maxRefreshRate)
    (hperm : regs'.Perm regs) :
    (addAll s regs).nMinMicros = 1000000 / g.pLed.maxRefreshRate
      ∧ (addAll s regs').nMinMicros = (addAll s regs).nMinMicros := by
  have h1 := addAll_slowest s regs g h0 hpos hg hmin
  have h2 := addAll_slowest s regs' g h0
    (fun x hx => hpos x (hperm.mem_iff.mp hx))
    (hperm.mem_iff.mpr hg)
    (fun x hx => hmin x (hperm.mem_iff.mp hx))
  exact ⟨h1, h2.trans h1.symm⟩

/-- Witness for claim C3: three drivers of 400, 60 and 100 Hz, registered in
that order and in the order 100, 400, 60. -/
theorem addLeds_slowest_driver_wins_witness :
    (addAll init [regOfRate 0 400, regOfRate 1 60, regOfRate 2 100]).nMinMicros
        = 1000000 / (regOfRate 1 60).pLed.maxRefreshRate
      ∧ (addAll init [regOfRate 2 100, regOfRate 0 400, regOfRate 1 60]).nMinMicros
        = (addAll init [regOfRate 0 400, regOfRate 1 60, regOfRate 2 100]).nMinMicros :=
  addLeds_slowest_driver_wins init
    [regOfRate 0 400, regOfRate 1 60, regOfRate 2 100]
    [regOfRate 2 100, regOfRate 0 400, regOfRate 1 60]
    (regOfRate 1 60) rfl (by decide) (by decide) (by decide) (by decide)

/-- Counterexample to claim C4 as stated: after a 60 Hz and then a 100 Hz
driver the minimum interval is not 16667. -/
theorem addLeds_60_100_not_16667 :
    ¬ ((addAll init [regOfRate 0 60, regOfRate 1 100]).nMinMicros = 16667) := by
  decide

/-- Claim C4 (amended): from a minimum interval of 0, registering a driver
with native ceiling 60 Hz and then one with native ceiling 100 Hz leaves the
minimum interval equal to 16666 microseconds, the integer quotient
`1000000 / 60`. -/
theorem addLeds_60_100_interval (s : State) (g1 g2 : Registration)
    (h0 : s.nMinMicros = 0)
    (h1 : g1.pLed.maxRefreshRate = 60) (h2 : g2.pLed.maxRefreshRate = 100) :
    (addAll s [g1, g2]).nMinMicros = 16666 := by
  rw [addAll_nMinMicros, h0]
  simp [stepInterval, h1, h2]

/-- Witness for claim C4 (amended). -/
theorem addLeds_60_100_interval_witness :
    (addAll init [regOfRate 0 60, regOfRate 1 100]).nMinMicros = 16666 :=
  addLeds_60_100_interval init (regOfRate 0 60) (regOfRate 1 100) rfl rfl rfl

/-! ## The registry accessors `count` and `operator[]` -/

theorem toInt32_of_range (x : Int) (h1 : -2147483648 ≤ x) (h2 : x < 2147483648) :
    toInt32 x = x := by
  unfold toInt32
  norm_num
  omega

theorem countLoop_eq :
    ∀ (cs : List CLEDController) (x : Int), 0 ≤ x → x + cs.length < 2147483648 →
      countLoop x cs = x + cs.length := by
  intro cs
  induction cs with
  | nil => intro x _ _; simp [countLoop]
  | cons c cs ih =>
    intro x h0 h1
    simp only [List.length_cons, Nat.cast_add, Nat.cast_one] at h1
    have e : toInt32 (x + 1) = x + 1 := toInt32_of_range _ (by omega) (by omega)
    simp only [countLoop, e, List.length_cons, Nat.cast_add, Nat.cast_one]
    rw [ih (x + 1) (by omega) (by omega)]
    omega

theorem count_eq_length (s : State) (h : (s.controllers.length : Int) < 2147483648) :
    count s = s.controllers.length := by
  unfold count
  rw [countLoop_eq s.controllers 0 (Int.le_refl 0) (by omega)]
  omega

/-- The loop of `operator[]` leaves `pCur` at the element number `x` for
`x ≥ 0` and at the element number `x + 2^32` for `x < 0`, or at the end. -/
theorem indexLoop_eq_drop :
    ∀ (cs : List CLEDController) (x : Int), -2147483648 ≤ x → x < 2147483648 →
      indexLoop x cs = cs.drop (x % 4294967296).toNat := by
  intro cs
  induction cs with
  | nil => intro x _ _; simp [indexLoop]
  | cons c cs ih =>
    intro x h1 h2
    unfold indexLoop
    by_cases hx : x = 0
    · subst hx
      simp
    · simp only [ne_eq, hx, not_false_eq_true, if_true]
      have hw : -2147483648 ≤ toInt32 (x - 1) ∧ toInt32 (x - 1) < 2147483648 := by
        unfold toInt32; norm_num; omega
      rw [ih (toInt32 (x - 1)) hw.1 hw.2]
      have hn : (x % 4294967296).toNat = (toInt32 (x - 1) % 4294967296).toNat + 1 := by
        unfold toInt32; norm_num; omega
      rw [hn, List.drop_succ_cons]

theorem operatorIndex_eq (s : State) (x : Int)
    (h1 : -2147483648 ≤ x) (h2 : x < 2147483648) :
    operatorIndex s x =
      if (x % 4294967296).toNat < s.controllers.length
      then s.controllers[(x % 4294967296).toNat]? else s.controllers.head? := by
  unfold operatorIndex
  rw [indexLoop_eq_drop s.controllers x h1 h2]
  cases hd : s.controllers.drop (x % 4294967296).toNat with
  | nil =>
    have := List.drop_eq_nil_iff.mp hd
    simp [Nat.not_lt.mpr this]
  | cons p tl =>
    have hlt : (x % 4294967296).toNat < s.controllers.length := by
      by_contra hge
      rw [List.drop_eq_nil_of_le (Nat.le_of_not_lt hge)] at hd
      cases hd
    have hh := List.head?_drop s.controllers (x % 4294967296).toNat
    rw [hd] at hh
    simp only [List.head?_cons] at hh
    simp [hlt, ← hh]

/-! ## What a render pass leaves of the power settings and of the estimator -/

theorem countFPS_below_window (clock : Nat → Nat) (s : State) (nFrames : Int)
    (h : s.br < nFrames) : countFPS clock s nFrames = some { s with br := s.br + 1 } := by
  unfold countFPS
  have hn : ¬ s.br ≥ nFrames := by omega
  simp only [hn, if_false]

theorem countFPS_power (clock : Nat → Nat) (s s' : State) (nFrames : Int)
    (h : countFPS clock s nFrames = some s') :
    s'.pPowerFunc = s.pPowerFunc ∧ s'.nPowerData = s.nPowerData ∧ s'.scale = s.scale := by
  obtain ⟨s2, h2, a, -, b, c, -⟩ := countFPS_frame clock s nFrames
  have : s2 = s' := Option.some.inj (h2.symm.trans h)
  subst this
  exact ⟨c, b, a⟩

theorem show_of_spin_rest (clock : Nat → Nat) (fuel : Nat) (s : State) (scale k : Nat)
    (h : spinWait clock s.nMinMicros s.lastshow fuel s.reads = some k) :
    ∃ s', «show» clock fuel s scale = some s'
      ∧ s'.pPowerFunc = s.pPowerFunc ∧ s'.nPowerData = s.nPowerData ∧ s'.scale = s.scale
      ∧ (s.br < 25 → s'.br = s.br + 1 ∧ s'.nFPS = s.nFPS ∧ s'.lastframe = s.lastframe) := by
  obtain ⟨s', hs', -⟩ := show_of_spin clock fuel s scale k h
  refine ⟨s', hs', ?_⟩
  unfold «show» at hs'
  rw [h] at hs'
  simp only at hs'
  obtain ⟨a, b, c⟩ := countFPS_power clock _ s' 25 hs'
  refine ⟨a, b, c, ?_⟩
  intro hbr
  rw [countFPS_below_window clock _ 25 (by exact hbr)] at hs'
  have := Option.some.inj hs'
  subst this
  exact ⟨rfl, rfl, rfl⟩

theorem showColor_of_spin_rest (clock : Nat → Nat) (fuel : Nat) (s : State) (color : CRGB)
    (scale k : Nat)
    (h : spinWait clock s.nMinMicros s.lastshow fuel s.reads = some k) :
    ∃ s', showColor clock fuel s color scale = some s'
      ∧ s'.pPowerFunc = s.pPowerFunc ∧ s'.nPowerData = s.nPowerData ∧ s'.scale = s.scale
      ∧ (s.br < 25 → s'.br = s.br + 1 ∧ s'.nFPS = s.nFPS ∧ s'.lastframe = s.lastframe) := by
  obtain ⟨s', hs', -⟩ := showColor_of_spin clock fuel s color scale k h
  refine ⟨s', hs', ?_⟩
  unfold showColor at hs'
  rw [h] at hs'
  simp only at hs'
  obtain ⟨a, b, c⟩ := countFPS_power clock _ s' 25 hs'
  refine ⟨a, b, c, ?_⟩
  intro hbr
  rw [countFPS_below_window clock _ 25 (by exact hbr)] at hs'
  have := Option.some.inj hs'
  subst this
  exact ⟨rfl, rfl, rfl⟩

/-! ## Sequences of requests to the limiter -/

theorem applyOp_constrain_nMinMicros (s : State) (o : LimiterOp)
    (h : isOverride o = false) :
    (applyOp s o).nMinMicros = max s.nMinMicros (intervalOf (requestedRate o)) := by
  cases o with
  | addLeds g =>
    simp only [applyOp, requestedRate, intervalOf, addLeds_nMinMicros]
    split
    · rfl
    · exact (Nat.max_eq_left (Nat.zero_le _)).symm
  | setMaxRefreshRate r c =>
    cases c with
    | false => simp [isOverride] at h
    | true =>
      simp only [applyOp, requestedRate, intervalOf, setMaxRefreshRate_true_nMinMicros]
      split
      · rfl
      · exact (Nat.max_eq_left (Nat.zero_le _)).symm

theorem applyOp_override_nMinMicros (s : State) (r : Nat) :
    (applyOp s (LimiterOp.setMaxRefreshRate r false)).nMinMicros = intervalOf r := by
  simp only [applyOp, intervalOf, setMaxRefreshRate]
  by_cases hr : r > 0 <;> simp [hr]

theorem applyOps_constrain_nMinMicros :
    ∀ (ops : List LimiterOp) (s : State), (∀ o ∈ ops, isOverride o = false) →
      (applyOps s ops).nMinMicros = largestInterval s.nMinMicros ops := by
  intro ops
  induction ops with
  | nil => intro s _; rfl
  | cons o ops ih =>
    intro s h
    have h1 := ih (applyOp s o) (fun x hx => h x (List.mem_cons_of_mem o hx))
    simp only [applyOps, List.foldl_cons, largestInterval, List.map_cons] at h1 ⊢
    rw [h1, applyOp_constrain_nMinMicros s o (h o (List.mem_cons_self o ops))]

/-! ## The render passes before the first recomputation of the rate -/

theorem render_pass (clock : Nat → Nat) (fuel : Nat) (s s1 : State) (q : Render)
    (h : render clock fuel s q = some s1) :
    (∃ new, s1.calls = s.calls ++ new
        ∧ new.filterMap flushDither
            = s.controllers.map (fun c => (c.id, if s.nFPS < 100 then 0 else c.dither)))
      ∧ s1.controllers = s.controllers
      ∧ (s.br < 25 → s1.br = s.br + 1 ∧ s1.nFPS = s.nFPS) := by
  cases q with
  | «show» scale =>
    obtain ⟨k, hk⟩ := show_some_spin clock fuel s s1 scale h
    obtain ⟨s2, h2, -, -, -, -, hc, hcalls⟩ := show_of_spin clock fuel s scale k hk
    obtain ⟨s3, h3, -, -, -, hbr⟩ := show_of_spin_rest clock fuel s scale k hk
    have e2 : s2 = s1 := Option.some.inj (h2.symm.trans h)
    have e3 : s3 = s1 := Option.some.inj (h3.symm.trans h)
    subst e2
    subst e3
    exact ⟨⟨_, hcalls, showLoop_flushDither _ _ _⟩, hc.trans (showLoop_controllers _ _ _),
      fun hlt => ⟨(hbr hlt).1, (hbr hlt).2.1⟩⟩
  | showColor color scale =>
    obtain ⟨k, hk⟩ := showColor_some_spin clock fuel s s1 color scale h
    obtain ⟨s2, h2, -, -, -, -, hc, hcalls⟩ := showColor_of_spin clock fuel s color scale k hk
    obtain ⟨s3, h3, -, -, -, hbr⟩ := showColor_of_spin_rest clock fuel s color scale k hk
    have e2 : s2 = s1 := Option.some.inj (h2.symm.trans h)
    have e3 : s3 = s1 := Option.some.inj (h3.symm.trans h)
    subst e2
    subst e3
    exact ⟨⟨_, hcalls, showColorLoop_flushDither _ _ _ _⟩,
      hc.trans (showColorLoop_controllers _ _ _ _),
      fun hlt => ⟨(hbr hlt).1, (hbr hlt).2.1⟩⟩

theorem renderSeq_first_window (clock : Nat → Nat) (fuel : Nat) :
    ∀ (qs : List Render) (s s' : State), s.nFPS = 0 → s.br + qs.length ≤ 26 →
      renderSeq clock fuel qs s = some s' →
      (∃ new, s'.calls = s.calls ++ new
          ∧ new.filterMap flushDither
              = (List.replicate qs.length (s.controllers.map (fun c => (c.id, 0)))).flatten)
        ∧ (s.br + qs.length ≤ 25 → s'.nFPS = 0 ∧ s'.br = s.br + qs.length) := by
  intro qs
  induction qs with
  | nil =>
    intro s s' h0 _ h
    simp only [renderSeq, Option.some.injEq] at h
    subst h
    exact ⟨⟨[], by simp, by simp⟩, fun _ => ⟨h0, by simp⟩⟩
  | cons q qs ih =>
    intro s s' h0 hlen h
    simp only [renderSeq] at h
    simp only [List.length_cons, Nat.cast_add, Nat.cast_one] at hlen
    cases hr : render clock fuel s q with
    | none => rw [hr] at h; cases h
    | some s1 =>
      rw [hr] at h
      obtain ⟨⟨new1, hc1, hf1⟩, hctl, hbr⟩ := render_pass clock fuel s s1 q hr
      have hf1' : new1.filterMap flushDither = s.controllers.map (fun c => (c.id, 0)) := by
        rw [hf1, h0]
        simp
      by_cases hlt : s.br < 25
      · obtain ⟨hb1, hn1⟩ := hbr hlt
        obtain ⟨⟨new2, hc2, hf2⟩, hrest⟩ :=
          ih s1 s' (hn1.trans h0) (by rw [hb1]; omega) h
        refine ⟨⟨new1 ++ new2, ?_, ?_⟩, ?_⟩
        · rw [hc2, hc1, List.append_assoc]
        · rw [List.filterMap_append, hf1', hf2, hctl]
          simp [List.replicate_succ]
        · intro hle
          simp only [List.length_cons, Nat.cast_add, Nat.cast_one] at hle
          obtain ⟨a, b⟩ := hrest (by rw [hb1]; omega)
          refine ⟨a, ?_⟩
          rw [b, hb1]
          simp only [List.length_cons, Nat.cast_add, Nat.cast_one]
          omega
      · have hq : qs = [] := by
          apply List.eq_nil_of_length_eq_zero
          omega
        subst hq
        simp only [renderSeq, Option.some.injEq] at h
        subst h
        refine ⟨⟨new1, hc1, ?_⟩, ?_⟩
        · rw [hf1']
          simp
        · intro hle
          simp only [List.length_cons, List.length_nil, Nat.cast_add, Nat.cast_one] at hle
          omega

theorem countFPS_at_window (clock : Nat → Nat) (s s' : State) (nFrames : Int)
    (h : s.br ≥ nFrames) (hs : countFPS clock s nFrames = some s') : s'.br = 0 := by
  unfold countFPS at hs
  simp only [h, if_true, udiv, fps_divisor_ne_zero, if_false, Option.some.injEq] at hs
  subst hs
  rfl

theorem render_window_end (clock : Nat → Nat) (fuel : Nat) (s s1 : State) (q : Render)
    (hbr : s.br ≥ 25) (h : render clock fuel s q = some s1) : s1.br = 0 := by
  cases q with
  | «show» scale =>
    obtain ⟨k, hk⟩ := show_some_spin clock fuel s s1 scale h
    simp only [render, «show», hk] at h
    refine countFPS_at_window clock _ s1 25 ?_ h
    exact hbr
  | showColor color scale =>
    obtain ⟨k, hk⟩ := showColor_some_spin clock fuel s s1 color scale h
    simp only [render, showColor, hk] at h
    refine countFPS_at_window clock _ s1 25 ?_ h
    exact hbr

theorem renderSeq_window_end (clock : Nat → Nat) (fuel : Nat) :
    ∀ (qs : List Render) (s s' : State), s.br ≤ 25 → s.br + qs.length = 26 →
      renderSeq clock fuel qs s = some s' → s'.br = 0 := by
  intro qs
  induction qs with
  | nil =>
    intro s s' h1 h2 _
    simp only [List.length_nil, Nat.cast_zero] at h2
    omega
  | cons q qs ih =>
    intro s s' h1 h2 h
    simp only [renderSeq] at h
    simp only [List.length_cons, Nat.cast_add, Nat.cast_one] at h2
    cases hr : render clock fuel s q with
    | none => rw [hr] at h; cases h
    | some s1 =>
      rw [hr] at h
      by_cases hlt : s.br < 25
      · obtain ⟨-, -, hbr⟩ := render_pass clock fuel s s1 q hr
        obtain ⟨hb1, -⟩ := hbr hlt
        exact ih s1 s' (by rw [hb1]; omega) (by rw [hb1]; omega) h
      · have hq : qs = [] := by
          apply List.eq_nil_of_length_eq_zero
          omega
        subst hq
        simp only [renderSeq, Option.some.injEq] at h
        subst h
        exact render_window_end clock fuel s s1 q (by omega) hr

end PicoLED

namespace PicoLED

/-! ## The frame-rate limiter in `show` and `showColor` -/

/-- Claim C5: over a monotonic microsecond timer given as a parameter, for
every minimum interval `I > 0` and every run of consecutive `show` or
`showColor` calls that returns, the timer value recorded as frame start by
each call is at least `I` microseconds later than the one recorded by the call
before it; the stored `lastshow` is the last recorded value, truncated to 32
bits. -/
theorem frame_starts_spaced_by_interval (clock : Nat → Nat) (hmono : Monotone clock)
    (fuel : Nat) (qs : List Render) (s s' : State)
    (hI : 0 < s.nMinMicros)
    (hrun : renderSeq clock fuel qs s = some s') :
    ∃ ts, s'.frameStarts = s.frameStarts ++ ts
      ∧ ts.length = qs.length
      ∧ (∀ i a b, ts[i]? = some a → ts[i + 1]? = some b → a + s.nMinMicros ≤ b)
      ∧ (∀ t, ts.getLast? = some t → s'.lastshow = micros t) := by
  cases qs with
  | nil =>
    simp only [renderSeq, Option.some.injEq] at hrun
    subst hrun
    exact ⟨[], by simp, rfl, by simp, by simp⟩
  | cons q qs =>
    simp only [renderSeq] at hrun
    cases hr : render clock fuel s q with
    | none => rw [hr] at hrun; cases hrun
    | some s1 =>
      rw [hr] at hrun
      obtain ⟨k, -, h1, h2, h3, h4⟩ := render_frame clock fuel s s1 q hr
      obtain ⟨ts, e1, e2, e3, e4⟩ :=
        renderSeq_chain clock hmono fuel s.nMinMicros hI qs s1 s' k h1 h4 h3 hrun
      refine ⟨clock k :: ts, ?_, ?_, ?_, ?_⟩
      · rw [e1, h2]; simp
      · simp [e2]
      · exact chain_getElem _ ts (clock k) e3
      · intro t ht
        rw [e4]
        rw [List.getLast?_eq_getLast _ (List.cons_ne_nil _ _)] at ht
        exact congrArg micros (Option.some.inj ht)

/-- Witness for claim C5: three renders on the sample orchestrator (minimum
interval 2500) over the sample timer return, and begin at 4000, 8000, 12000. -/
theorem frame_starts_spaced_by_interval_witness :
    ∃ s', renderSeq tickClock 10
        [Render.show 128, Render.showColor ⟨0, 0, 0⟩ 0, Render.show 128] twoStrips = some s'
      ∧ s'.frameStarts = [4000, 8000, 12000]
      ∧ ∃ ts, s'.frameStarts = twoStrips.frameStarts ++ ts
        ∧ ts.length = [Render.show 128, Render.showColor ⟨0, 0, 0⟩ 0, Render.show 128].length
        ∧ (∀ i a b, ts[i]? = some a → ts[i + 1]? = some b → a + twoStrips.nMinMicros ≤ b)
        ∧ (∀ t, ts.getLast? = some t → s'.lastshow = micros t) := by
  have hsome : (renderSeq tickClock 10
      [Render.show 128, Render.showColor ⟨0, 0, 0⟩ 0, Render.show 128] twoStrips).isSome
      = true := by decide
  obtain ⟨s', hs'⟩ := Option.isSome_iff_exists.mp hsome
  have hfs : (renderSeq tickClock 10
      [Render.show 128, Render.showColor ⟨0, 0, 0⟩ 0, Render.show 128] twoStrips).map
      (fun x => x.frameStarts) = some [4000, 8000, 12000] := by decide
  rw [hs'] at hfs
  exact ⟨s', hs', Option.some.inj hfs,
    frame_starts_spaced_by_interval tickClock
      (fun a b h => Nat.mul_le_mul_left 1000 h) 10
      [Render.show 128, Render.showColor ⟨0, 0, 0⟩ 0, Render.show 128] twoStrips s'
      (by decide) hs'⟩

/-! ## The frames-per-second estimator -/

/-- Claim C6 (the code at the failing input): from the fresh estimator, 25
calls of `countFPS(25)` never reach the recomputation, whatever the timer
returns; the counter stands at 25, no timer read was made and `getFPS()` is
still 0; with calls 1 ms apart the 26th call is the first to store the rate. -/
theorem countFPS_25_calls_leave_rate_zero (clock : Nat → Nat) :
    (countFPSN clock 25 25 init).map (fun s => (getFPS s, s.br, s.reads)) = some (0, 25, 0)
      ∧ (countFPSN (fun _ => 26000) 25 26 init).map getFPS = some 1000 := by
  constructor
  · rfl
  · decide

/-- Claim C7: `countFPS` never divides by zero. For every state, window size
and timer it returns a state; when it recomputes the rate the divisor is the
elapsed milliseconds modulo 2^32 if that is non-zero and 1 otherwise, and a
window of zero elapsed milliseconds stores the dividend itself (modulo 2^16). -/
theorem countFPS_divisor_never_zero (clock : Nat → Nat) (s : State) (nFrames : Int) :
    (∃ s', countFPS clock s nFrames = some s')
      ∧ (s.br ≥ nFrames →
          ∃ d q, d ≠ 0
            ∧ d = (if u32sub (millis (clock s.reads)) s.lastframe = 0 then 1
                   else u32sub (millis (clock s.reads)) s.lastframe)
            ∧ udiv (toU32 ((s.br + 1) * 1000)) d = some q
            ∧ (countFPS clock s nFrames).map getFPS = some (q % 2 ^ 16))
      ∧ (s.br ≥ nFrames → u32sub (millis (clock s.reads)) s.lastframe = 0 →
          (countFPS clock s nFrames).map getFPS
            = some (toU32 ((s.br + 1) * 1000) % 2 ^ 16)) := by
  refine ⟨?_, ?_, ?_⟩
  · obtain ⟨s', hs', -⟩ := countFPS_frame clock s nFrames
    exact ⟨s', hs'⟩
  · intro h
    refine ⟨_, toU32 ((s.br + 1) * 1000) /
        (if u32sub (millis (clock s.reads)) s.lastframe = 0 then 1
         else u32sub (millis (clock s.reads)) s.lastframe),
      fps_divisor_ne_zero _, rfl, ?_, ?_⟩
    · simp only [udiv, fps_divisor_ne_zero, if_false]
    · unfold countFPS
      simp only [h, if_true, udiv, fps_divisor_ne_zero, if_false, Option.map_some', getFPS]
  · intro h h0
    unfold countFPS
    simp only [h, if_true, udiv, h0, if_false, Option.map_some', getFPS, Nat.div_one]
    rfl

/-! ## Dither suppression, restoration and the order of the visits -/

/-- Claim C8: during a `show` or `showColor` pass that gets past the guard,
every registered driver, in order, is flushed with dither flag 0 when the
stored FPS estimate is below 100 and with its own configured dither value
when the estimate is 100 or more. -/
theorem flush_dither_by_fps (clock : Nat → Nat) (fuel : Nat) (s : State) (color : CRGB)
    (scale k : Nat)
    (hk : spinWait clock s.nMinMicros s.lastshow fuel s.reads = some k) :
    (∃ s' new, «show» clock fuel s scale = some s' ∧ s'.calls = s.calls ++ new
        ∧ new.filterMap flushDither
            = s.controllers.map (fun c => (c.id, if getFPS s < 100 then 0 else c.dither)))
      ∧ (∃ s' new, showColor clock fuel s color scale = some s' ∧ s'.calls = s.calls ++ new
        ∧ new.filterMap flushDither
            = s.controllers.map (fun c => (c.id, if getFPS s < 100 then 0 else c.dither))) := by
  constructor
  · obtain ⟨s', h, -, -, -, -, -, hc⟩ := show_of_spin clock fuel s scale k hk
    exact ⟨s', _, h, hc, showLoop_flushDither _ _ _⟩
  · obtain ⟨s', h, -, -, -, -, -, hc⟩ := showColor_of_spin clock fuel s color scale k hk
    exact ⟨s', _, h, hc, showColorLoop_flushDither _ _ _ _⟩

/-- Witness for claim C8: the sample orchestrator with an estimate of 99. -/
theorem flush_dither_by_fps_witness :
    (∃ s' new, «show» tickClock 10 { twoStrips with nFPS := 99 } 128 = some s'
        ∧ s'.calls = ({ twoStrips with nFPS := 99 } : State).calls ++ new
        ∧ new.filterMap flushDither
            = ({ twoStrips with nFPS := 99 } : State).controllers.map
                (fun c => (c.id,
                  if getFPS { twoStrips with nFPS := 99 } < 100 then 0 else c.dither)))
      ∧ (∃ s' new, showColor tickClock 10 { twoStrips with nFPS := 99 } ⟨1, 2, 3⟩ 128 = some s'
        ∧ s'.calls = ({ twoStrips with nFPS := 99 } : State).calls ++ new
        ∧ new.filterMap flushDither
            = ({ twoStrips with nFPS := 99 } : State).controllers.map
                (fun c => (c.id,
                  if getFPS { twoStrips with nFPS := 99 } < 100 then 0 else c.dither))) :=
  flush_dither_by_fps tickClock 10 { twoStrips with nFPS := 99 } ⟨1, 2, 3⟩ 128 4 (by decide)

/-- Claim C9: after `show` or `showColor` returns, the registry is the one
from before the call; in particular every registered driver has the dither
setting it had before the call, whatever the FPS estimate and brightness. -/
theorem dither_restored_after_render (clock : Nat → Nat) (fuel : Nat) (s : State)
    (color : CRGB) (scale k : Nat)
    (hk : spinWait clock s.nMinMicros s.lastshow fuel s.reads = some k) :
    (∃ s', «show» clock fuel s scale = some s' ∧ s'.controllers = s.controllers
        ∧ s'.controllers.map (fun c => c.dither) = s.controllers.map (fun c => c.dither))
      ∧ (∃ s', showColor clock fuel s color scale = some s' ∧ s'.controllers = s.controllers
        ∧ s'.controllers.map (fun c => c.dither) = s.controllers.map (fun c => c.dither)) := by
  constructor
  · obtain ⟨s', h, -, -, -, -, hc, -⟩ := show_of_spin clock fuel s scale k hk
    have e : s'.controllers = s.controllers := hc.trans (showLoop_controllers _ _ _)
    exact ⟨s', h, e, by rw [e]⟩
  · obtain ⟨s', h, -, -, -, -, hc, -⟩ := showColor_of_spin clock fuel s color scale k hk
    have e : s'.controllers = s.controllers := hc.trans (showColorLoop_controllers _ _ _ _)
    exact ⟨s', h, e, by rw [e]⟩

/-- Witness for claim C9: the sample orchestrator (estimate 0, both drivers
with dither 1). -/
theorem dither_restored_after_render_witness :
    (∃ s', «show» tickClock 10 twoStrips 128 = some s'
        ∧ s'.controllers = twoStrips.controllers
        ∧ s'.controllers.map (fun c => c.dither)
            = twoStrips.controllers.map (fun c => c.dither))
      ∧ (∃ s', showColor tickClock 10 twoStrips ⟨1, 2, 3⟩ 128 = some s'
        ∧ s'.controllers = twoStrips.controllers
        ∧ s'.controllers.map (fun c => c.dither)
            = twoStrips.controllers.map (fun c => c.dither)) :=
  dither_restored_after_render tickClock 10 twoStrips ⟨1, 2, 3⟩ 128 4 (by decide)

/-- Claim C10: each fan-out operation visits every registered driver exactly
once, in registration order, with the same value: the calls made by
`setTemperature`, `setCorrection`, `setDither` and `clearData` are one call
per driver in order; the flushes of a `show` or `showColor` pass that gets
past the guard are one per driver in order, all with the same brightness (and
colour); with an empty registry no call is made on any driver. -/
theorem fan_out_visits_in_order (clock : Nat → Nat) (fuel : Nat) (s : State)
    (temp correction color : CRGB) (ditherMode scale k : Nat)
    (hk : spinWait clock s.nMinMicros s.lastshow fuel s.reads = some k) :
    (setTemperature s temp).calls
        = s.calls ++ s.controllers.map (fun c => DriverCall.setTemperature c.id temp)
      ∧ (setCorrection s correction).calls
        = s.calls ++ s.controllers.map (fun c => DriverCall.setCorrection c.id correction)
      ∧ (setDither s ditherMode).calls
        = s.calls ++ s.controllers.map (fun c => DriverCall.setDither c.id ditherMode)
      ∧ (clearData s).calls
        = s.calls ++ s.controllers.map (fun c => DriverCall.clearLedData c.id)
      ∧ (∃ s' new, «show» clock fuel s scale = some s' ∧ s'.calls = s.calls ++ new
          ∧ new.filterMap flushArgs
              = s.controllers.map (fun c => (c.id, none, powerScale s scale))
          ∧ (s.controllers = [] → new = []))
      ∧ (∃ s' new, showColor clock fuel s color scale = some s' ∧ s'.calls = s.calls ++ new
          ∧ new.filterMap flushArgs
              = s.controllers.map (fun c => (c.id, some color, powerScale s scale))
          ∧ (s.controllers = [] → new = []))
      ∧ (s.controllers = [] →
          (setTemperature s temp).calls = s.calls ∧ (setCorrection s correction).calls = s.calls
            ∧ (setDither s ditherMode).calls = s.calls ∧ (clearData s).calls = s.calls) := by
  refine ⟨?_, ?_, ?_, ?_, ?_, ?_, ?_⟩
  · simp only [setTemperature, setTemperatureLoop_eq]
  · simp only [setCorrection, setCorrectionLoop_eq]
  · simp only [setDither, setDitherLoop_eq]
  · simp only [clearData, clearDataLoop_eq]
  · obtain ⟨s', h, -, -, -, -, -, hc⟩ := show_of_spin clock fuel s scale k hk
    refine ⟨s', _, h, hc, showLoop_flushArgs _ _ _, ?_⟩
    intro he
    rw [he]
    rfl
  · obtain ⟨s', h, -, -, -, -, -, hc⟩ := showColor_of_spin clock fuel s color scale k hk
    refine ⟨s', _, h, hc, showColorLoop_flushArgs _ _ _ _, ?_⟩
    intro he
    rw [he]
    rfl
  · intro he
    simp [setTemperature, setCorrection, setDither, clearData, he, setTemperatureLoop,
      setCorrectionLoop, setDitherLoop, clearDataLoop]

/-- Witness for claim C10: the sample orchestrator with its two drivers. -/
theorem fan_out_visits_in_order_witness :
    (setTemperature twoStrips ⟨255, 147, 41⟩).calls
        = twoStrips.calls
          ++ twoStrips.controllers.map (fun c => DriverCall.setTemperature c.id ⟨255, 147, 41⟩)
      ∧ (setCorrection twoStrips ⟨255, 176, 240⟩).calls
        = twoStrips.calls
          ++ twoStrips.controllers.map (fun c => DriverCall.setCorrection c.id ⟨255, 176, 240⟩)
      ∧ (setDither twoStrips 0).calls
        = twoStrips.calls ++ twoStrips.controllers.map (fun c => DriverCall.setDither c.id 0)
      ∧ (clearData twoStrips).calls
        = twoStrips.calls ++ twoStrips.controllers.map (fun c => DriverCall.clearLedData c.id)
      ∧ (∃ s' new, «show» tickClock 10 twoStrips 128 = some s'
          ∧ s'.calls = twoStrips.calls ++ new
          ∧ new.filterMap flushArgs
              = twoStrips.controllers.map (fun c => (c.id, none, powerScale twoStrips 128))
          ∧ (twoStrips.controllers = [] → new = []))
      ∧ (∃ s' new, showColor tickClock 10 twoStrips ⟨1, 2, 3⟩ 128 = some s'
          ∧ s'.calls = twoStrips.calls ++ new
          ∧ new.filterMap flushArgs
              = twoStrips.controllers.map
                  (fun c => (c.id, some ⟨1, 2, 3⟩, powerScale twoStrips 128))
          ∧ (twoStrips.controllers = [] → new = []))
      ∧ (twoStrips.controllers = [] →
          (setTemperature twoStrips ⟨255, 147, 41⟩).calls = twoStrips.calls
            ∧ (setCorrection twoStrips ⟨255, 176, 240⟩).calls = twoStrips.calls
            ∧ (setDither twoStrips 0).calls = twoStrips.calls
            ∧ (clearData twoStrips).calls = twoStrips.calls) :=
  fan_out_visits_in_order tickClock 10 twoStrips ⟨255, 147, 41⟩ ⟨255, 176, 240⟩ ⟨1, 2, 3⟩
    0 128 4 (by decide)

/-! ## The registry accessor `operator[]` -/

/-- Claim C11: for a non-empty registry `d0 .. d(n-1)` and every `int` index
`x`, `operator[](x)` denotes `dx` when `0 ≤ x < n` and the first driver `d0`
otherwise; in particular `operator[](count())` and `operator[](-1)` both
denote `d0`. -/
theorem operator_index_out_of_range_is_first (s : State) (x : Int) (d0 : CLEDController)
    (hhead : s.controllers.head? = some d0)
    (hlen : (s.controllers.length : Int) < 2147483648)
    (hx1 : -2147483648 ≤ x) (hx2 : x < 2147483648) :
    operatorIndex s x
        = (if 0 ≤ x ∧ x < count s then s.controllers[x.toNat]? else some d0)
      ∧ (0 ≤ x → x < count s →
          ∃ dx, s.controllers[x.toNat]? = some dx ∧ operatorIndex s x = some dx)
      ∧ operatorIndex s (count s) = some d0
      ∧ operatorIndex s (-1) = some d0 := by
  have hc := count_eq_length s hlen
  have key : ∀ y : Int, -2147483648 ≤ y → y < 2147483648 →
      operatorIndex s y
        = (if 0 ≤ y ∧ y < count s then s.controllers[y.toNat]? else some d0) := by
    intro y hy1 hy2
    rw [operatorIndex_eq s y hy1 hy2, hc, hhead]
    by_cases hin : 0 ≤ y ∧ y < (s.controllers.length : Int)
    · have e : (y % 4294967296).toNat = y.toNat := by omega
      have hlt : y.toNat < s.controllers.length := by omega
      rw [e, if_pos hlt, if_pos hin]
    · have hge : ¬ (y % 4294967296).toNat < s.controllers.length := by omega
      rw [if_neg hge, if_neg hin]
  refine ⟨key x hx1 hx2, ?_, ?_, ?_⟩
  · intro h0 hn
    rw [hc] at hn
    have hlt : x.toNat < s.controllers.length := by omega
    refine ⟨s.controllers[x.toNat], List.getElem?_eq_getElem hlt, ?_⟩
    rw [key x hx1 hx2, if_pos ⟨h0, by rw [hc]; exact hn⟩]
    exact List.getElem?_eq_getElem hlt
  · rw [key (count s) (by rw [hc]; omega) (by rw [hc]; exact hlen)]
    rw [if_neg (by omega)]
  · rw [key (-1) (by omega) (by omega)]
    rw [if_neg (by omega)]

/-- Witness for claim C11: the sample orchestrator with its two drivers, at
index 1. -/
theorem operator_index_out_of_range_is_first_witness :
    operatorIndex twoStrips 1
        = (if (0 : Int) ≤ 1 ∧ 1 < count twoStrips then twoStrips.controllers[(1 : Int).toNat]?
           else some firstStrip)
      ∧ ((0 : Int) ≤ 1 → 1 < count twoStrips →
          ∃ dx, twoStrips.controllers[(1 : Int).toNat]? = some dx
            ∧ operatorIndex twoStrips 1 = some dx)
      ∧ operatorIndex twoStrips (count twoStrips)
          = some firstStrip
      ∧ operatorIndex twoStrips (-1)
          = some firstStrip :=
  operator_index_out_of_range_is_first twoStrips 1 firstStrip (by decide) (by decide) (by decide)
    (by decide)

/-! ## The power function and the brightness of a flush -/

/-- Claim C12: for every brightness `b` passed to `show` or `showColor` (in a
pass that gets past the guard), when no power function is installed every
registered driver is flushed with exactly `b`, and when a power function `f`
with ceiling parameter `p` is installed every registered driver is flushed
with exactly `f b p`; the pass leaves the power settings as they were, so the
same holds on every later call. -/
theorem flush_brightness_through_power_function (clock : Nat → Nat) (fuel : Nat) (s : State)
    (color : CRGB) (b k : Nat)
    (hk : spinWait clock s.nMinMicros s.lastshow fuel s.reads = some k) :
    (s.pPowerFunc = none →
        (∃ s' new, «show» clock fuel s b = some s' ∧ s'.calls = s.calls ++ new
          ∧ new.filterMap flushArgs = s.controllers.map (fun c => (c.id, none, b))
          ∧ s'.pPowerFunc = none)
        ∧ (∃ s' new, showColor clock fuel s color b = some s' ∧ s'.calls = s.calls ++ new
          ∧ new.filterMap flushArgs = s.controllers.map (fun c => (c.id, some color, b))
          ∧ s'.pPowerFunc = none))
      ∧ (∀ f, s.pPowerFunc = some f →
        (∃ s' new, «show» clock fuel s b = some s' ∧ s'.calls = s.calls ++ new
          ∧ new.filterMap flushArgs
              = s.controllers.map (fun c => (c.id, none, f b s.nPowerData))
          ∧ s'.pPowerFunc = some f ∧ s'.nPowerData = s.nPowerData)
        ∧ (∃ s' new, showColor clock fuel s color b = some s' ∧ s'.calls = s.calls ++ new
          ∧ new.filterMap flushArgs
              = s.controllers.map (fun c => (c.id, some color, f b s.nPowerData))
          ∧ s'.pPowerFunc = some f ∧ s'.nPowerData = s.nPowerData)) := by
  obtain ⟨s1, h1, -, -, -, -, -, hc1⟩ := show_of_spin clock fuel s b k hk
  obtain ⟨s1', h1', p1, q1, -⟩ := show_of_spin_rest clock fuel s b k hk
  have e1 : s1' = s1 := Option.some.inj (h1'.symm.trans h1)
  subst e1
  obtain ⟨s2, h2, -, -, -, -, -, hc2⟩ := showColor_of_spin clock fuel s color b k hk
  obtain ⟨s2', h2', p2, q2, -⟩ := showColor_of_spin_rest clock fuel s color b k hk
  have e2 : s2' = s2 := Option.some.inj (h2'.symm.trans h2)
  subst e2
  have f1 := showLoop_flushArgs s.nFPS (powerScale s b) s.controllers
  have f2 := showColorLoop_flushArgs s.nFPS color (powerScale s b) s.controllers
  constructor
  · intro hnone
    have hp : powerScale s b = b := by simp [powerScale, hnone]
    exact ⟨⟨s1', _, h1, hc1, by rw [f1, hp], p1.trans hnone⟩,
      ⟨s2', _, h2, hc2, by rw [f2, hp], p2.trans hnone⟩⟩
  · intro f hf
    have hp : powerScale s b = f b s.nPowerData := by simp [powerScale, hf]
    exact ⟨⟨s1', _, h1, hc1, by rw [f1, hp], p1.trans hf, q1⟩,
      ⟨s2', _, h2, hc2, by rw [f2, hp], p2.trans hf, q2⟩⟩

/-- Witness for claim C12: the sample orchestrator with the halving power
function installed, brightness 128. -/
theorem flush_brightness_through_power_function_witness :
    (twoStripsLimited.pPowerFunc = none →
        (∃ s' new, «show» tickClock 10 twoStripsLimited 128 = some s'
          ∧ s'.calls = twoStripsLimited.calls ++ new
          ∧ new.filterMap flushArgs
              = twoStripsLimited.controllers.map (fun c => (c.id, none, 128))
          ∧ s'.pPowerFunc = none)
        ∧ (∃ s' new, showColor tickClock 10 twoStripsLimited ⟨1, 2, 3⟩ 128 = some s'
          ∧ s'.calls = twoStripsLimited.calls ++ new
          ∧ new.filterMap flushArgs
              = twoStripsLimited.controllers.map (fun c => (c.id, some ⟨1, 2, 3⟩, 128))
          ∧ s'.pPowerFunc = none))
      ∧ (∀ f, twoStripsLimited.pPowerFunc = some f →
        (∃ s' new, «show» tickClock 10 twoStripsLimited 128 = some s'
          ∧ s'.calls = twoStripsLimited.calls ++ new
          ∧ new.filterMap flushArgs
              = twoStripsLimited.controllers.map
                  (fun c => (c.id, none, f 128 twoStripsLimited.nPowerData))
          ∧ s'.pPowerFunc = some f ∧ s'.nPowerData = twoStripsLimited.nPowerData)
        ∧ (∃ s' new, showColor tickClock 10 twoStripsLimited ⟨1, 2, 3⟩ 128 = some s'
          ∧ s'.calls = twoStripsLimited.calls ++ new
          ∧ new.filterMap flushArgs
              = twoStripsLimited.controllers.map
                  (fun c => (c.id, some ⟨1, 2, 3⟩, f 128 twoStripsLimited.nPowerData))
          ∧ s'.pPowerFunc = some f ∧ s'.nPowerData = twoStripsLimited.nPowerData)) :=
  flush_brightness_through_power_function tickClock 10 twoStripsLimited ⟨1, 2, 3⟩ 128 4
    (by decide)

/-! ## `delay`, `clear` and the global brightness -/

/-- Claim C13 (the code at the failing input): `delay` only waits. For every
state and duration it makes no call on any driver, records no frame start and
leaves the estimator alone; on the sample orchestrator with two registered
drivers `delay(1)` flushes no driver. -/
theorem delay_makes_no_render_pass (s : State) (delay_ms spins : Nat) :
    (delay s delay_ms spins).calls = s.calls
      ∧ (delay s delay_ms spins).frameStarts = s.frameStarts
      ∧ (delay s delay_ms spins).br = s.br
      ∧ getFPS (delay s delay_ms spins) = getFPS s
      ∧ (((delay twoStrips 1 spins).calls.drop twoStrips.calls.length).filterMap flushArgs = []
          ∧ twoStrips.controllers.length = 2) := by
  have hcalls : ∀ t : State, (delay t delay_ms spins).calls = t.calls := by
    intro t
    unfold delay busy_wait_us busy_wait_us_32
    split <;> rfl
  have hcalls1 : (delay twoStrips 1 spins).calls = twoStrips.calls := by
    unfold delay busy_wait_us busy_wait_us_32
    split <;> rfl
  refine ⟨hcalls s, ?_, ?_, ?_, ?_, ?_⟩
  · unfold delay busy_wait_us busy_wait_us_32
    split <;> rfl
  · unfold delay busy_wait_us busy_wait_us_32
    split <;> rfl
  · unfold delay busy_wait_us busy_wait_us_32
    split <;> rfl
  · rw [hcalls1, List.drop_length]
    rfl
  · decide

/-- Claim C14: `clear(writeData)` clears the buffer of every registered
driver whatever `writeData` is. With `writeData` false it makes no flush and
leaves the last-frame timestamp, the frame counter and the FPS estimate
unchanged; with `writeData` true it first performs the render
`showColor(CRGB(0,0,0), 0)` (it returns whenever that render gets past the
guard) and then clears the buffers. -/
theorem clear_clears_every_buffer (clock : Nat → Nat) (fuel : Nat) (s : State) :
    (clear clock fuel s false = some (clearData s)
        ∧ (clearData s).calls
            = s.calls ++ s.controllers.map (fun c => DriverCall.clearLedData c.id)
        ∧ (s.controllers.map (fun c => DriverCall.clearLedData c.id)).filterMap flushArgs = []
        ∧ (clearData s).lastshow = s.lastshow ∧ (clearData s).frameStarts = s.frameStarts
        ∧ (clearData s).br = s.br ∧ getFPS (clearData s) = getFPS s
        ∧ (clearData s).controllers = s.controllers)
      ∧ (∀ s1, showColor clock fuel s ⟨0, 0, 0⟩ 0 = some s1 →
          clear clock fuel s true = some (clearData s1)
            ∧ (clearData s1).calls
                = s1.calls ++ s.controllers.map (fun c => DriverCall.clearLedData c.id))
      ∧ (showColor clock fuel s ⟨0, 0, 0⟩ 0 = none → clear clock fuel s true = none)
      ∧ (∀ k, spinWait clock s.nMinMicros s.lastshow fuel s.reads = some k →
          ∃ s1, showColor clock fuel s ⟨0, 0, 0⟩ 0 = some s1
            ∧ clear clock fuel s true = some (clearData s1)) := by
  have hcd : ∀ t : State, (clearData t).calls
      = t.calls ++ t.controllers.map (fun c => DriverCall.clearLedData c.id) := by
    intro t
    simp only [clearData, clearDataLoop_eq]
  refine ⟨⟨rfl, hcd s, ?_, rfl, rfl, rfl, rfl, ?_⟩, ?_, ?_, ?_⟩
  · induction s.controllers with
    | nil => rfl
    | cons c cs ih => simp [flushArgs]
  · simp only [clearData, clearDataLoop_eq]
  · intro s1 h1
    obtain ⟨k, hk⟩ := showColor_some_spin clock fuel s s1 ⟨0, 0, 0⟩ 0 h1
    obtain ⟨s2, h2, -, -, -, -, hc, -⟩ := showColor_of_spin clock fuel s ⟨0, 0, 0⟩ 0 k hk
    have e : s2 = s1 := Option.some.inj (h2.symm.trans h1)
    subst e
    have hcs : s2.controllers = s.controllers := hc.trans (showColorLoop_controllers _ _ _ _)
    refine ⟨by simp [clear, h1], ?_⟩
    rw [hcd s2, hcs]
  · intro h
    simp [clear, h]
  · intro k hk
    obtain ⟨s1, h1, -⟩ := showColor_of_spin clock fuel s ⟨0, 0, 0⟩ 0 k hk
    exact ⟨s1, h1, by simp [clear, h1]⟩

/-- Claim C15 (the code at the failing input): after `setBrightness(128)` on
the sample orchestrator `getBrightness()` still returns the constructor's 255,
and a following `show()` flushes both drivers with brightness 255. -/
theorem setBrightness_128_keeps_255 :
    getBrightness (setBrightness twoStrips 128) = 255
      ∧ (show0 tickClock 10 (setBrightness twoStrips 128)).map
          (fun s' => (s'.calls.drop twoStrips.calls.length).filterMap flushArgs)
        = some [(0, none, 255), (1, none, 255)] := by
  constructor
  · decide
  · decide

/-! ## The invariant of the minimum interval -/

/-- Counterexample to claim C16 as stated: after registering a 60 Hz driver
and then calling `setMaxRefreshRate(400, false)` the minimum interval is 2500,
not the largest requested interval 16666. -/
theorem override_after_registration_lowers_interval :
    (applyOps init [LimiterOp.addLeds (regOfRate 0 60),
        LimiterOp.setMaxRefreshRate 400 false]).nMinMicros = 2500
      ∧ largestInterval 0 [LimiterOp.addLeds (regOfRate 0 60),
        LimiterOp.setMaxRefreshRate 400 false] = 16666
      ∧ ¬ ((applyOps init [LimiterOp.addLeds (regOfRate 0 60),
              LimiterOp.setMaxRefreshRate 400 false]).nMinMicros
            = largestInterval 0 [LimiterOp.addLeds (regOfRate 0 60),
              LimiterOp.setMaxRefreshRate 400 false]) := by
  decide

/-- Claim C16 (amended): after any sequence of `addLeds` registrations and
`setMaxRefreshRate` calls, the minimum interval is the largest of the
intervals `1000000 / r` requested since the most recent call with
`constrain = false`, that call included (an interval of 0 for a rate of 0);
with no such call it is the largest of the interval before the sequence and
all the requested ones. What was requested before the most recent override
does not count. -/
theorem interval_is_largest_since_last_override (s : State) (pre post : List LimiterOp)
    (hpost : ∀ o ∈ post, isOverride o = false) :
    (applyOps s post).nMinMicros = largestInterval s.nMinMicros post
      ∧ (s.nMinMicros = 0 → (applyOps s post).nMinMicros = largestInterval 0 post)
      ∧ (∀ r, (applyOps s (pre ++ LimiterOp.setMaxRefreshRate r false :: post)).nMinMicros
          = largestInterval (intervalOf r) post) := by
  refine ⟨applyOps_constrain_nMinMicros post s hpost, ?_, ?_⟩
  · intro h0
    rw [applyOps_constrain_nMinMicros post s hpost, h0]
  · intro r
    have e : applyOps s (pre ++ LimiterOp.setMaxRefreshRate r false :: post)
        = applyOps (applyOp (applyOps s pre) (LimiterOp.setMaxRefreshRate r false)) post := by
      simp only [applyOps, List.foldl_append, List.foldl_cons]
    rw [e, applyOps_constrain_nMinMicros post _ hpost, applyOp_override_nMinMicros]

/-- Witness for claim C16 (amended): a 60 Hz driver, an override, then a
100 Hz driver and a constrained request of 200 Hz. -/
theorem interval_is_largest_since_last_override_witness :
    (applyOps init [LimiterOp.addLeds (regOfRate 1 100),
          LimiterOp.setMaxRefreshRate 200 true]).nMinMicros
        = largestInterval init.nMinMicros [LimiterOp.addLeds (regOfRate 1 100),
          LimiterOp.setMaxRefreshRate 200 true]
      ∧ (init.nMinMicros = 0 →
          (applyOps init [LimiterOp.addLeds (regOfRate 1 100),
            LimiterOp.setMaxRefreshRate 200 true]).nMinMicros
          = largestInterval 0 [LimiterOp.addLeds (regOfRate 1 100),
            LimiterOp.setMaxRefreshRate 200 true])
      ∧ (∀ r, (applyOps init ([LimiterOp.addLeds (regOfRate 0 60)]
            ++ LimiterOp.setMaxRefreshRate r false
              :: [LimiterOp.addLeds (regOfRate 1 100),
                  LimiterOp.setMaxRefreshRate 200 true])).nMinMicros
          = largestInterval (intervalOf r) [LimiterOp.addLeds (regOfRate 1 100),
              LimiterOp.setMaxRefreshRate 200 true]) :=
  interval_is_largest_since_last_override init [LimiterOp.addLeds (regOfRate 0 60)]
    [LimiterOp.addLeds (regOfRate 1 100), LimiterOp.setMaxRefreshRate 200 true]
    (by decide)

/-! ## What `countFPS` stores -/

/-- Counterexample to claim C17 as stated: with a window of 25 and calls 1 ms
apart, the recomputation (in the 26th call, 26 ms after the reset) stores
1000, not `(25 * 1000) / 26 = 961`. -/
theorem countFPS_stores_counter_not_window :
    (countFPSN (fun _ => 26000) 25 26 init).map getFPS = some 1000
      ∧ (25 * 1000) / 26 = 961
      ∧ ¬ ((countFPSN (fun _ => 26000) 25 26 init).map getFPS = some ((25 * 1000) / 26)) := by
  decide

/-- Claim C17 (amended): whenever `countFPS(nFrames)` recomputes the rate, the
stored rate is `(c * 1000) / elapsedMillis`, where `c` is the frame counter
after the increment of this call (the product taken modulo 2^32, the quotient
stored modulo 2^16) and `elapsedMillis` is the milliseconds since the previous
reset modulo 2^32, taken as 1 when it is 0; the frame counter is reset to 0
and the reset timestamp is set to the current time. On every call that does
not recompute, `getFPS()` keeps its value and the counter grows by one. -/
theorem countFPS_stores_counter_rate (clock : Nat → Nat) (s : State) (nFrames : Int) :
    (s.br ≥ nFrames →
        ∃ s', countFPS clock s nFrames = some s'
          ∧ getFPS s' = (toU32 ((s.br + 1) * 1000)
              / (if u32sub (millis (clock s.reads)) s.lastframe = 0 then 1
                 else u32sub (millis (clock s.reads)) s.lastframe)) % 2 ^ 16
          ∧ s'.br = 0
          ∧ s'.lastframe = millis (clock (s.reads + 1)))
      ∧ (s.br < nFrames →
        ∃ s', countFPS clock s nFrames = some s'
          ∧ getFPS s' = getFPS s ∧ s'.br = s.br + 1 ∧ s'.lastframe = s.lastframe)
      ∧ (0 ≤ s.br → (s.br + 1) * 1000 < 2 ^ 32 →
          toU32 ((s.br + 1) * 1000) = (s.br.toNat + 1) * 1000) := by
  refine ⟨?_, ?_, ?_⟩
  · intro h
    unfold countFPS
    simp only [h, if_true, udiv, fps_divisor_ne_zero, if_false]
    exact ⟨_, rfl, rfl, rfl, rfl⟩
  · intro h
    rw [countFPS_below_window clock s nFrames h]
    exact ⟨_, rfl, rfl, rfl, rfl⟩
  · intro h0 h1
    unfold toU32
    norm_num at h1 ⊢
    omega

/-! ## The brightness setter and the registration -/

theorem foldl_setBrightness (vs : List Nat) (s : State) : vs.foldl setBrightness s = s := by
  induction vs with
  | nil => rfl
  | cons v vs ih => simpa [List.foldl_cons, setBrightness] using ih

/-- Claim C18: `setBrightness(v)` leaves the whole orchestrator state, the
stored global brightness included, unchanged for every state and every `v`;
so after construction `getBrightness()` returns 255 after any sequence of
`setBrightness` calls. -/
theorem setBrightness_changes_nothing (s : State) (v : Nat) (vs : List Nat) :
    setBrightness s v = s
      ∧ getBrightness (setBrightness s v) = getBrightness s
      ∧ getBrightness init = 255
      ∧ getBrightness (vs.foldl setBrightness init) = 255 := by
  refine ⟨rfl, rfl, rfl, ?_⟩
  rw [foldl_setBrightness]
  rfl

/-- Claim C19: `addLeds(driver, data, a, b)` binds the driver to the region
starting at `data + a` with length `b` when `b > 0`, and to the region
starting at `data` with length `a` when `b ≤ 0`; it initialises the driver
exactly once and returns that same driver, otherwise unchanged. -/
theorem addLeds_binds_region (s : State) (pLed : CLEDController) (data a b : Int) :
    (b > 0 → (addLeds s pLed data a b).2.data = data + a
        ∧ (addLeds s pLed data a b).2.nLeds = b
        ∧ (addLeds s pLed data a b).1.calls
            = s.calls ++ [DriverCall.init pLed.id, DriverCall.setLeds pLed.id (data + a) b])
      ∧ (b ≤ 0 → (addLeds s pLed data a b).2.data = data
        ∧ (addLeds s pLed data a b).2.nLeds = a
        ∧ (addLeds s pLed data a b).1.calls
            = s.calls ++ [DriverCall.init pLed.id, DriverCall.setLeds pLed.id data a])
      ∧ (addLeds s pLed data a b).2.inits = pLed.inits + 1
      ∧ (((addLeds s pLed data a b).1.calls.drop s.calls.length).filter
            (fun c => c = DriverCall.init pLed.id)).length = 1
      ∧ (addLeds s pLed data a b).2
          = { pLed with
              inits := pLed.inits + 1
              data := (addLeds s pLed data a b).2.data
              nLeds := (addLeds s pLed data a b).2.nLeds }
      ∧ (addLeds s pLed data a b).1.controllers
          = s.controllers ++ [(addLeds s pLed data a b).2] := by
  have hcalls : (addLeds s pLed data a b).1.calls
      = s.calls ++ [DriverCall.init pLed.id,
          DriverCall.setLeds pLed.id (data + (if b > 0 then a else 0))
            (if b > 0 then b else a)] := by
    unfold addLeds setMaxRefreshRate
    simp only [if_true]
    split <;> rfl
  have hctl : (addLeds s pLed data a b).1.controllers
      = s.controllers ++ [(addLeds s pLed data a b).2] := by
    unfold addLeds setMaxRefreshRate
    simp only [if_true]
    split <;> rfl
  refine ⟨?_, ?_, rfl, ?_, rfl, hctl⟩
  · intro hb
    refine ⟨?_, ?_, ?_⟩
    · simp [addLeds, hb]
    · simp [addLeds, hb]
    · rw [hcalls]; simp [hb]
  · intro hb
    have hn : ¬ b > 0 := by omega
    refine ⟨?_, ?_, ?_⟩
    · simp [addLeds, hn]
    · simp [addLeds, hn]
    · rw [hcalls]; simp [hn]
  · rw [hcalls, List.drop_left]
    simp [List.filter]

/-! ## The first window of the estimator and dithering -/

/-- Claim C20: from an orchestrator whose FPS estimate and frame counter are
0 (as the constructor leaves them), with the default window of 25, in each of
the first 26 `show` or `showColor` passes every registered driver is flushed
with dither 0 whatever its configured dither value is; `getFPS()` is still 0
after each of the first 25 calls, and the 26th call is the one that
recomputes the rate (it resets the frame counter). -/
theorem first_26_passes_flush_without_dither (clock : Nat → Nat) (fuel : Nat)
    (qs : List Render) (s s' : State)
    (hfps : getFPS s = 0) (hbr : s.br = 0) (hlen : qs.length ≤ 26)
    (hrun : renderSeq clock fuel qs s = some s') :
    (∃ new, s'.calls = s.calls ++ new
        ∧ new.filterMap flushDither
            = (List.replicate qs.length (s.controllers.map (fun c => (c.id, 0)))).flatten)
      ∧ (qs.length ≤ 25 → getFPS s' = 0 ∧ s'.br = qs.length)
      ∧ (qs.length = 26 → s'.br = 0) := by
  have h1 := renderSeq_first_window clock fuel qs s s' hfps (by rw [hbr]; omega) hrun
  refine ⟨h1.1, ?_, ?_⟩
  · intro hle
    obtain ⟨a, b⟩ := h1.2 (by rw [hbr]; omega)
    exact ⟨a, by rw [b, hbr]; omega⟩
  · intro h26
    exact renderSeq_window_end clock fuel qs s s' (by rw [hbr]; omega)
      (by rw [hbr]; omega) hrun

/-- Witness for claim C20: 26 renders on the sample orchestrator (both
drivers configured with dither 1) over the sample timer. -/
theorem first_26_passes_flush_without_dither_witness :
    ∃ s', renderSeq tickClock 10 twentySixRenders twoStrips = some s'
      ∧ twoStrips.controllers.map (fun c => c.dither) = [1, 1]
      ∧ (∃ new, s'.calls = twoStrips.calls ++ new
        ∧ new.filterMap flushDither
            = (List.replicate twentySixRenders.length
                (twoStrips.controllers.map (fun c => (c.id, 0)))).flatten)
      ∧ (twentySixRenders.length ≤ 25 → getFPS s' = 0 ∧ s'.br = twentySixRenders.length)
      ∧ (twentySixRenders.length = 26 → s'.br = 0) := by
  have hsome : (renderSeq tickClock 10 twentySixRenders twoStrips).isSome = true := by
    decide!
  obtain ⟨s', hs'⟩ := Option.isSome_iff_exists.mp hsome
  exact ⟨s', hs', by decide,
    first_26_passes_flush_without_dither tickClock 10 twentySixRenders twoStrips s'
      (by decide) (by decide) (by decide) hs'⟩

end PicoLED
